import Mathlib

/-!
Shallow embedding of the `dgeq` generic-query engine (filtering, sorting,
pagination, relation expansion and visibility control over a relational
schema), together with theorems settling the specification claims.

Python reference files: `dgeq/censor.py`, `dgeq/constants.py`, `dgeq/utils.py`,
`dgeq/filter.py`, `dgeq/joins.py`, `dgeq/commands.py`, `dgeq/dgeq.py`.

Modelling conventions:
* Django model classes are identified by their name (`String`); the schema
  introspector (`Model._meta`) is embedded as an explicit `Schema` value.
* Python exceptions raised by dgeq become an explicit `DgeqError` sum, and
  fallible code runs in `Except`; non-dgeq exceptions (the generic fallback
  path of `GenericQuery.evaluate`) are the `.other` constructor of `PyError`.
* Python `dict` values keyed by strings are association lists with the
  `d[k] = v` update-in-place-or-append semantics (`setAssoc`), Python `set`
  values are lists with add-if-absent semantics (`addIfAbsent`).
-/

namespace Dgeq

/-- Typed literal produced by the value type-inference parsers
(`dgeq/types.py`): empty string → null, then int, float, ISO-8601 datetime,
falling back to string.  Floats and datetimes are carried by their source
text: only their type tag participates in the operator-table lookup. -/
inductive FilterValue where
  | null : FilterValue
  | int (n : Int) : FilterValue
  | float (raw : String) : FilterValue
  | dt (iso : String) : FilterValue
  | str (s : String) : FilterValue
deriving Repr, DecidableEq

/-- The Python type tag of a parsed value, used as second component of the
keys of `DEFAULT_FILTERS_TABLE`. -/
inductive FVType where
  | tnone | tint | tfloat | tdt | tstr
deriving Repr, DecidableEq

def FilterValue.typeOf : FilterValue → FVType
  | .null => .tnone
  | .int _ => .tint
  | .float _ => .tfloat
  | .dt _ => .tdt
  | .str _ => .tstr

/-- Django lookup names appearing in `DEFAULT_FILTERS_TABLE`
(`dgeq/filter.py` lines 37-72). -/
inductive Lookup where
  | exact | iexact | gt | gte | lt | lte
  | startswith | istartswith | endswith | iendswith
  | contains | icontains
deriving Repr, DecidableEq

/-- dgeq's error taxonomy (`dgeq/exceptions.py`).  Constructors carry the
data needed by the claims; the caller-visible detail lists (valid fields
and the like) are derivable from the model name and the censor and are not
duplicated here. -/
inductive DgeqError where
  | searchModifier (modifier : String) (value : FilterValue)
  | unknownField (model field : String)
  | notARelatedField (model field : String)
  | fieldDepth (field : String)
  | invalidCommand (command message : String)
deriving Repr, DecidableEq

/-- The stable error code of each exception class (`code` class attribute in
`dgeq/exceptions.py`). -/
def DgeqError.code : DgeqError → String
  | .searchModifier _ _ => "INVALID_SEARCH_MODIFIER"
  | .unknownField _ _ => "UNKNOWN_FIELD"
  | .notARelatedField _ _ => "NOT_A_RELATED_FIELD"
  | .fieldDepth _ => "FIELD_DEPTH_ERROR"
  | .invalidCommand _ _ => "INVALID_COMMAND_ERROR"

/-- Rendering of an error to its public message (`__str__` of each exception
class, abridged to the data carried by `DgeqError`). -/
def DgeqError.msg : DgeqError → String
  | .searchModifier m _ => "Search modifier '" ++ m ++ "' cannot be used on this type"
  | .unknownField m f => "Unknown field '" ++ f ++ "' in the table '" ++ m ++ "'"
  | .notARelatedField m f =>
      "Field '" ++ f ++ "' in table '" ++ m ++ "' is not a foreign key"
  | .fieldDepth f => "Field '" ++ f ++ "' exceed the allowed depth of related field"
  | .invalidCommand c m => "Invalid command '" ++ c ++ "': " ++ m

instance {ε α : Type} [DecidableEq ε] [DecidableEq α] :
    DecidableEq (Except ε α) := fun x y =>
  match x, y with
  | .ok a, .ok b =>
    if h : a = b then .isTrue (by simp [h]) else .isFalse (by simp [h])
  | .error e, .error f =>
    if h : e = f then .isTrue (by simp [h]) else .isFalse (by simp [h])
  | .ok _, .error _ => .isFalse (by simp)
  | .error _, .ok _ => .isFalse (by simp)

/-- An exception escaping a pipeline stage: either a member of the dgeq
taxonomy (caught by the first `except DgeqError` clause of
`GenericQuery.evaluate`) or any other exception, carried by the text that
`str(e)` would produce (caught by the final `except Exception` clause). -/
inductive PyError where
  | dgeq (e : DgeqError)
  | other (text : String)
deriving Repr, DecidableEq

/-- Metadata of one model field, as exposed by Django's `Model._meta`:
whether the field is a relation, the related model (`remote_field.model`,
meaningful only for relations) and whether the relation is to-many
(`ManyToOneRel` / `ManyToManyField` / `ManyToManyRel`). -/
structure FieldInfo where
  is_relation : Bool
  remote : String := ""
  many : Bool := false
deriving Repr, DecidableEq

/-- The schema introspector: for each model name, its fields with their
metadata (Django's `Model._meta.get_fields()`). -/
structure Schema where
  fieldsOf : String → List (String × FieldInfo)

/-- `Model._meta.get_field(name)`, returning `none` where Django raises
`FieldDoesNotExist`. -/
def Schema.getField (s : Schema) (model f : String) : Option FieldInfo :=
  ((s.fieldsOf model).find? (fun p => p.1 == f)).map (fun p => p.2)

/-- The field names of a model, in declaration order. -/
def Schema.fieldNames (s : Schema) (model : String) : List String :=
  (s.fieldsOf model).map (fun p => p.1)

/-- Python `str.split(sep)` for a one-character separator (always returns at
least one piece). -/
def pySplit (s : String) (sep : Char) : List String :=
  (s.data.splitOn sep).map (fun l => String.mk l)

/-- Python `str.isdigit()` restricted to ASCII digits: true on nonempty
all-digit strings. -/
def pyIsdigit (s : String) : Bool :=
  s ≠ "" && s.data.all Char.isDigit

/-- Python `int(s)` for a string accepted by `pyIsdigit`: fold the decimal
digits. -/
def pyToNat (s : String) : Nat :=
  s.data.foldl (fun acc c => acc * 10 + (c.toNat - Char.toNat '0')) 0

/-- Python dict update `d[k] = v`: replace the value of an existing key in
place, append otherwise. -/
def setAssoc {α : Type} (l : List (String × α)) (k : String) (v : α) :
    List (String × α) :=
  if l.any (fun p => p.1 == k) then
    l.map (fun p => if p.1 == k then (k, v) else p)
  else
    l ++ [(k, v)]

/-- Python dict read `d.get(k)`. -/
def getAssoc {α : Type} (l : List (String × α)) (k : String) : Option α :=
  ((l.find? (fun p => p.1 == k)).map (fun p => p.2))

/-- Python `field.replace(".", "__")`: rewrite the dotted path into
Django's double-underscore lookup syntax. -/
def pyReplaceDot (s : String) : String :=
  String.mk (s.data.flatMap (fun c => if c = '.' then ['_', '_'] else [c]))

/-- Python `s.startswith(pre)` (structural, over the character lists). -/
def pyStartsWith (s pre : String) : Bool :=
  pre.data.isPrefixOf s.data

/-- Python `s.endswith(suf)` (structural, over the character lists). -/
def pyEndsWith (s suf : String) : Bool :=
  suf.data.isSuffixOf s.data

/-- Python `s[n:]` (structural, over the character list). -/
def pyDrop (s : String) (n : Nat) : String :=
  String.mk (s.data.drop n)

/-- Python `s[:n]` (structural, over the character list). -/
def pyTake (s : String) (n : Nat) : String :=
  String.mk (s.data.take n)

/-- Python `s[:-n]` (structural, over the character list). -/
def pyDropRight (s : String) (n : Nat) : String :=
  String.mk (s.data.take (s.data.length - n))

/-- Python `s.lower()` (structural, over the character list). -/
def pyLower (s : String) : String :=
  String.mk (s.data.map Char.toLower)

/-- Python `set.add` on a list model of a set. -/
def addIfAbsent (l : List String) (x : String) : List String :=
  if l.contains x then l else l ++ [x]

/-- `utils.get_field`: `model._meta.get_field(field if not
field.endswith("_set") else field[:-4])` — reverse accessor names drop the
`_set` suffix before the metadata lookup (`dgeq/utils.py` lines 160-172). -/
def get_field (s : Schema) (field : String) (model : String) : Option FieldInfo :=
  s.getField model (if pyEndsWith field "_set" then pyDropRight field 4 else field)

/-- The project-wide visibility settings `DGEQ_PUBLIC_FIELDS` and
`DGEQ_PRIVATE_FIELDS` read from `settings.py` (`dgeq/censor.py` lines
14-19), each mapping a model to the list of its public (resp. private)
fields; `none` models a model absent from the mapping. -/
structure Settings where
  DGEQ_PUBLIC_FIELDS : String → Option (List String)
  DGEQ_PRIVATE_FIELDS : String → Option (List String)

/-- The `Censor` visibility filter (`dgeq/censor.py`): per-instance public
and private field mappings, plus the optional Django permission capability.
`has_view_perm m` models `user.has_perm("app.view_m")` on the related
model `m`. -/
structure Censor where
  public_fields : String → Option (List String)
  private_fields : String → Option (List String)
  use_permissions : Bool := false
  has_view_perm : String → Bool := fun _ => true

/-- `Censor.is_private` (`dgeq/censor.py` lines 78-105): when permission
checks are enabled, a relation field whose related model the user may not
view is private (and a nonexistent field raises `UnknownFieldError`);
otherwise the first of the four mappings that contains the model decides:
instance public list, instance private list, `DGEQ_PUBLIC_FIELDS`,
`DGEQ_PRIVATE_FIELDS`; a model absent from all four is fully public. -/
def Censor.is_private (st : Settings) (s : Schema) (c : Censor)
    (model field : String) : Except DgeqError Bool := do
  let chain : Bool :=
    match c.public_fields model with
    | some l => !(l.contains field)
    | none =>
      match c.private_fields model with
      | some l => l.contains field
      | none =>
        match st.DGEQ_PUBLIC_FIELDS model with
        | some l => !(l.contains field)
        | none =>
          match st.DGEQ_PRIVATE_FIELDS model with
          | some l => l.contains field
          | none => false
  if c.use_permissions then
    match get_field s field model with
    | none => throw (.unknownField model field)
    | some fi =>
      if fi.is_relation && !(c.has_view_perm fi.remote) then
        return true
      else
        return chain
  else
    return chain

/-- `Censor.is_public` (`dgeq/censor.py` lines 108-111). -/
def Censor.is_public (st : Settings) (s : Schema) (c : Censor)
    (model field : String) : Except DgeqError Bool := do
  return !(← c.is_private st s model field)

/-- `Censor.censor` (`dgeq/censor.py` lines 114-117): keep exactly the
public fields.  Only used with `use_permissions = false` by the claims, so
the permission-path exception cannot occur; a field that would raise is
dropped. -/
def Censor.censor (st : Settings) (s : Schema) (c : Censor) (model : String)
    (fields : List String) : List String :=
  fields.filter (fun f =>
    match c.is_private st s model f with
    | .ok b => !b
    | .error _ => false)

/-- `DGEQ_MAX_NESTED_FIELD_DEPTH` default (`dgeq/constants.py` line 10). -/
def DGEQ_MAX_NESTED_FIELD_DEPTH : Nat := 10

/-- `DGEQ_DEFAULT_LIMIT` default (`dgeq/constants.py` line 20). -/
def DGEQ_DEFAULT_LIMIT : Nat := 10

/-- `DGEQ_MAX_LIMIT` default (`dgeq/constants.py` line 24). -/
def DGEQ_MAX_LIMIT : Nat := 200

/-- `utils._check_field` (`dgeq/utils.py` lines 176-212): recursively check
one path segment at a time.  A segment marked private by the censor, or
absent from both the schema and (for the first segment) the arbitrary
fields, raises `UnknownFieldError`; a non-final segment must be a relation
(`NotARelatedFieldError`) and moves the current model to the related model.
The recursive call does not forward `arbitrary_fields` (the source omits the
argument, so arbitrary names are only recognised on the first segment). -/
def _check_field (st : Settings) (s : Schema) :
    List String → String → Censor → List String →
    Except DgeqError (String × String)
  | [], current_model, _, _ =>
    -- unreachable: `str.split` never yields an empty list
    throw (.unknownField current_model "")
  | token :: subfields, current_model, censor, arbitrary_fields => do
    if (← censor.is_private st s current_model token) then
      throw (.unknownField current_model token)
    -- an arbitrary (computed) name acts as a synthetic non-relation field
    let fieldRes : Except DgeqError FieldInfo :=
      if arbitrary_fields.contains token then
        .ok { is_relation := false }
      else
        match get_field s token current_model with
        | none => throw (.unknownField current_model token)
        | some fi => .ok fi
    match fieldRes with
    | .error e => throw e
    | .ok fi =>
      match subfields with
      | [] => return (current_model, token)
      | _ :: _ =>
        if !fi.is_relation then
          throw (.notARelatedField current_model token)
        else
          _check_field st s subfields fi.remote censor []

/-- `utils.check_field` (`dgeq/utils.py` lines 216-258): split the dotted
path, fail with `FieldDepthError` when the number of segments reaches
`DGEQ_MAX_NESTED_FIELD_DEPTH`, then delegate to `_check_field`. -/
def check_field (st : Settings) (s : Schema) (field : String) (model : String)
    (censor : Censor) (arbitrary_fields : List String := []) :
    Except DgeqError (String × String) :=
  let field_list := pySplit field '.'
  if field_list.length ≥ DGEQ_MAX_NESTED_FIELD_DEPTH then
    throw (.fieldDepth field)
  else
    _check_field st s field_list model censor arbitrary_fields

/-- An entry of the modifier/type → lookup table: non-string types map to a
single lookup, string types to a `(case-insensitive, case-sensitive)` pair
indexed by the query's case flag (`dgeq/filter.py` lines 28-36). -/
inductive TableEntry where
  | single (l : Lookup)
  | pair (insensitive sensitive : Lookup)
deriving Repr, DecidableEq

/-- `DEFAULT_FILTERS_TABLE` (`dgeq/filter.py` lines 37-72), keyed by
(search modifier, inferred value type).  Note that the equality (`""`) and
difference (`"!"`) rows have no `float` entry. -/
def DEFAULT_FILTERS_TABLE : String → FVType → Option TableEntry
  | "", .tint => some (.single .exact)
  | "", .tstr => some (.pair .iexact .exact)
  | "", .tdt => some (.single .exact)
  | "", .tnone => some (.single .exact)
  | "!", .tint => some (.single .exact)
  | "!", .tstr => some (.pair .iexact .exact)
  | "!", .tdt => some (.single .exact)
  | "!", .tnone => some (.single .exact)
  | ">", .tint => some (.single .gt)
  | ">", .tfloat => some (.single .gt)
  | ">", .tstr => some (.pair .gt .gt)
  | ">", .tdt => some (.single .gt)
  | "[", .tint => some (.single .gte)
  | "[", .tfloat => some (.single .gte)
  | "[", .tstr => some (.pair .gte .gte)
  | "[", .tdt => some (.single .gte)
  | "<", .tint => some (.single .lt)
  | "<", .tfloat => some (.single .lt)
  | "<", .tstr => some (.pair .lt .lt)
  | "<", .tdt => some (.single .lt)
  | "]", .tint => some (.single .lte)
  | "]", .tfloat => some (.single .lte)
  | "]", .tstr => some (.pair .lte .lte)
  | "]", .tdt => some (.single .lte)
  | "^", .tstr => some (.pair .istartswith .startswith)
  | "$", .tstr => some (.pair .iendswith .endswith)
  | "*", .tstr => some (.pair .icontains .contains)
  | "~", .tstr => some (.pair .icontains .contains)
  | _, _ => none

/-- `FILTERS_TABLE`: the default table (the `DGEQ_FILTERS_TABLE` settings
extension point is not exercised by any claim). -/
def FILTERS_TABLE : String → FVType → Option TableEntry := DEFAULT_FILTERS_TABLE

/-- `SEARCH_MODIFIERS` (`dgeq/filter.py` line 79): the first components of
the table's keys (the empty modifier included, as in the source; it can
never equal a one-character prefix). -/
def SEARCH_MODIFIERS : List String :=
  ["", "!", ">", "[", "<", "]", "^", "$", "*", "~"]

/-- `EXCLUDE_SEARCH_MODIFIERS` (`dgeq/filter.py` line 84): modifiers that
compile through `queryset.exclude()` — a negated predicate — instead of
`queryset.filter()`. -/
def EXCLUDE_SEARCH_MODIFIERS : List String := ["!", "~"]

/-- A compiled Django `Q` object `Q(**{field + "__" + lookup: value})`,
possibly negated (`~Q(...)`). -/
structure Q where
  field : String
  lookup : Lookup
  value : FilterValue
  negated : Bool
deriving Repr, DecidableEq

/-- A row of storage data: attribute name ↦ value. -/
def Row := List (String × FilterValue)
deriving DecidableEq, Repr

/-- Attribute access on a row (`getattr`); rows produced by the storage
collaborator always contain the attributes the compiled plan mentions. -/
def rowGet (r : Row) (f : String) : FilterValue :=
  (((r : List (String × FilterValue)).find? (fun p => p.1 == f)).map
    (fun p => p.2)).getD .null

/-- Lexicographic strict order on character lists (structural, the order
`String &lt;` denotes). -/
def strLtList : List Char → List Char → Bool
  | [], [] => false
  | [], _ :: _ => true
  | _ :: _, [] => false
  | a :: as, b :: bs => if a = b then strLtList as bs else decide (a.toNat < b.toNat)

/-- Python `a < b` on strings: lexicographic over the characters. -/
def pyStrLt (a b : String) : Bool :=
  strLtList a.data b.data

/-- Strict comparison between two values of the same type, used by the
ordering lookups (storage-collaborator semantics). -/
def fvLt : FilterValue → FilterValue → Bool
  | .int a, .int b => a < b
  | .str a, .str b => pyStrLt a b
  | .dt a, .dt b => pyStrLt a b
  | .float a, .float b => pyStrLt a b
  | _, _ => false

/-- Semantics of one Django lookup applied to a row value and the filter
literal (storage-collaborator semantics: `exact` is equality, `i…` variants
compare strings case-insensitively, orderings use `fvLt`, the affix lookups
are prefix/suffix/infix tests on strings). -/
def evalLookup : Lookup → FilterValue → FilterValue → Bool
  | .exact, a, b => a == b
  | .iexact, .str a, .str b => pyLower a == pyLower b
  | .iexact, a, b => a == b
  | .gt, a, b => fvLt b a
  | .gte, a, b => fvLt b a || a == b
  | .lt, a, b => fvLt a b
  | .lte, a, b => fvLt a b || a == b
  | .startswith, .str a, .str b => pyStartsWith a b
  | .istartswith, .str a, .str b => pyStartsWith (pyLower a) (pyLower b)
  | .endswith, .str a, .str b => pyEndsWith a b
  | .iendswith, .str a, .str b => pyEndsWith (pyLower a) (pyLower b)
  | .contains, .str a, .str b => decide (b.data <:+: a.data)
  | .icontains, .str a, .str b => decide ((pyLower b).data <:+: (pyLower a).data)
  | _, _, _ => false

/-- Evaluate a compiled `Q` object on one row: the lookup's truth value,
negated for `~Q`. -/
def evalQ (q : Q) (r : Row) : Bool :=
  let b := evalLookup q.lookup (rowGet r q.field) q.value
  if q.negated then !b else b

/-- The none parser of `dgeq/types.py`: the empty string is the null
literal. -/
def none_parse (v : String) : Option FilterValue :=
  if v = "" then some .null else none

/-- Python `int(value)` on a decimal literal with optional leading minus
sign (structural; the non-decimal shapes Python additionally accepts are
not needed by any claim). -/
def pyToInt (s : String) : Option Int :=
  match s.data with
  | '-' :: rest =>
    if rest ≠ [] ∧ rest.all Char.isDigit then
      some (-(Int.ofNat (pyToNat (String.mk rest))))
    else none
  | l =>
    if l ≠ [] ∧ l.all Char.isDigit then some (Int.ofNat (pyToNat s))
    else none

/-- The int parser of `dgeq/types.py`: Python `int(value)`, modelled by
`pyToInt`. -/
def int_parse (v : String) : Option FilterValue :=
  (pyToInt v).map .int

/-- The float parser of `dgeq/types.py`, modelled for the decimal
shape `⟨int⟩.⟨digits⟩` (the shapes Python additionally accepts, such as
exponents, are not needed by any claim — only the float type tag is). -/
def float_parse (v : String) : Option FilterValue :=
  match pySplit v '.' with
  | [a, b] => if (pyToInt a).isSome && pyIsdigit b then some (.float v) else none
  | _ => none

/-- The ordered run of `TYPE_PARSERS` inside `Filter.__init__`
(`dgeq/filter.py` lines 114-119): first parser to succeed wins, otherwise
the value stays a string.  The ISO-8601 datetime parser
(`dateutil.isoparse`) is not modelled: no settled claim evaluates the
parser chain on a datetime-shaped input (datetime literals are quantified
over directly as `FilterValue.dt`). -/
def parseValue (v : String) : FilterValue :=
  match none_parse v with
  | some x => x
  | none =>
    match int_parse v with
    | some x => x
    | none =>
      match float_parse v with
      | some x => x
      | none => .str v

/-- A compiled search filter (`dgeq/filter.py`, class `Filter`): resolved
field (dots replaced by `__`), extracted modifier, typed literal and
case-sensitivity flag. -/
structure Filter where
  field : String
  modifier : String
  value : FilterValue
  case : Bool
deriving Repr, DecidableEq

/-- `Filter.__init__` (`dgeq/filter.py` lines 92-120): validate the field
through `check_field` first (so a censored or unknown field aborts the
construction), then strip a leading search modifier if the first character
is one, then run the type parsers over the remaining literal. -/
def Filter.init (st : Settings) (s : Schema) (field value : String)
    (case : Bool) (model : String) (arbitrary_fields : List String)
    (censor : Censor) : Except DgeqError Filter := do
  let _ ← check_field st s field model censor arbitrary_fields
  let (modifier, rest) :=
    if value ≠ "" ∧ SEARCH_MODIFIERS.contains (pyTake value 1) then
      (pyTake value 1, pyDrop value 1)
    else
      ("", value)
  return { field := pyReplaceDot field, modifier := modifier,
           value := parseValue rest, case := case }

/-- `Filter.get` (`dgeq/filter.py` lines 123-137): look the
(modifier, value type) pair up in `FILTERS_TABLE` — a missing entry raises
`SearchModifierError` — select the case variant for string values, and
build a direct `Q` for modifiers outside `EXCLUDE_SEARCH_MODIFIERS`, a
negated `~Q` for those inside. -/
def Filter.get (f : Filter) : Except DgeqError Q :=
  match FILTERS_TABLE f.modifier f.value.typeOf with
  | none => throw (.searchModifier f.modifier f.value)
  | some entry =>
    let lookup :=
      match entry with
      | .single l => l
      | .pair insensitive sensitive => if f.case then sensitive else insensitive
    if !(EXCLUDE_SEARCH_MODIFIERS.contains f.modifier) then
      .ok { field := f.field, lookup := lookup, value := f.value, negated := false }
    else
      .ok { field := f.field, lookup := lookup, value := f.value, negated := true }

/-- A Django `QuerySet` as a chainable query descriptor (storage
collaborator of §6): accumulated predicates, ordering, and an absolute
row window set by slicing. -/
structure QuerySet where
  filters : List Q := []
  order : List String := []
  sliceStart : Nat := 0
  sliceStop : Option Nat := none
  isSliced : Bool := false
deriving Repr, DecidableEq

/-- `queryset[start:stop]` — Django composes the new bounds inside the
already-taken window and marks the query sliced. -/
def qsSlice (qs : QuerySet) (start : Nat) (stop : Option Nat) : QuerySet :=
  { qs with
    sliceStart := qs.sliceStart + start,
    sliceStop :=
      match stop, qs.sliceStop with
      | none, old => old
      | some n, none => some (qs.sliceStart + n)
      | some n, some m => some (min (qs.sliceStart + n) m),
    isSliced := true }

/-- `queryset.order_by(*fields)` — the storage collaborator refuses to
reorder once a slice has been taken (Django raises with exactly this
message). -/
def QuerySet.order_by (qs : QuerySet) (fields : List String) :
    Except PyError QuerySet :=
  if qs.isSliced then
    throw (.other "Cannot reorder a query once a slice has been taken.")
  else
    .ok { qs with order := fields }

/-- `queryset.filter(q)` — likewise refused once a slice has been taken. -/
def QuerySet.filterQ (qs : QuerySet) (q : Q) : Except PyError QuerySet :=
  if qs.isSliced then
    throw (.other "Cannot filter a query once a slice has been taken.")
  else
    .ok { qs with filters := qs.filters ++ [q] }

/-- `Filter.apply` (`dgeq/filter.py` lines 148-151):
`queryset.filter(self.get())`. -/
def Filter.apply (f : Filter) (qs : QuerySet) : Except PyError QuerySet := do
  match f.get with
  | .error e => throw (.dgeq e)
  | .ok q => qs.filterQ q

/-- Row comparison along an ordering spec (a leading `-` selects descending
order on that key; ties fall through to the next key). -/
def keyLe (ks : List String) (a b : Row) : Bool :=
  match ks with
  | [] => true
  | k :: rest =>
    let desc := pyStartsWith k "-"
    let f := if desc then pyDrop k 1 else k
    let x := rowGet a f
    let y := rowGet b f
    if x == y then keyLe rest a b
    else if desc then !(fvLt x y) else fvLt x y

def insertSorted (le : Row → Row → Bool) (x : Row) : List Row → List Row
  | [] => [x]
  | y :: t => if le x y then x :: y :: t else y :: insertSorted le x t

/-- Sorting of materialized rows by the ordering spec (storage
collaborator semantics; the identity when the spec is empty). -/
def sortRows (le : Row → Row → Bool) : List Row → List Row
  | [] => []
  | x :: t => insertSorted le x (sortRows le t)

/-- Python slicing `rows[start:stop]` on a materialized list. -/
def applySlice (rows : List Row) (start : Nat) (stop : Option Nat) : List Row :=
  match stop with
  | none => rows.drop start
  | some n => (rows.take n).drop start

/-- `execute()` of the storage collaborator: run a compiled descriptor over
the stored table — apply the conjunction of the predicates, then the
ordering, then the slice window. -/
def runQuerySet (data : List Row) (qs : QuerySet) : List Row :=
  applySlice
    (sortRows (keyLe qs.order)
      (data.filter (fun r => qs.filters.all (fun q => evalQ q r))))
    qs.sliceStart qs.sliceStop

/-- The result envelope (`GenericQuery.result` and the failure dictionaries
of `GenericQuery.evaluate`); the per-error typed detail fields are not
modelled (no claim reads them). -/
structure Envelope where
  status : Bool
  rows : Option (List Row) := none
  count : Option Nat := none
  code : Option String := none
  message : Option String := none
deriving Repr, DecidableEq

/-- The incoming parameter set: an ordered list of (key, values supplied
for that key) pairs — `list(query_dict.lists())` in
`GenericQuery.__init__`. -/
def QueryDict := List (String × List String)

/-- `query_dict.getlist(k)`. -/
def qdGetlist (qd : QueryDict) (k : String) : List String :=
  (getAssoc (qd : List (String × List String)) k).getD []

/-- `query_dict.get(k, default)` — Django returns the last value supplied
for the key. -/
def qdGet (qd : QueryDict) (k : String) (dflt : String) : String :=
  match getAssoc (qd : List (String × List String)) k with
  | some vs => vs.getLast?.getD dflt
  | none => dflt

/-- `utils.split_list_strings`: split every supplied value on the separator
and concatenate, so `a=1,2&a=3` yields `["1","2","3"]`. -/
def split_list_strings (lst : List String) (sep : Char) : List String :=
  (lst.map (fun s => pySplit s sep)).flatten

/-- The mutable state threaded through the pipeline — the attributes set by
`GenericQuery.__init__` (`dgeq/dgeq.py` lines 105-128). -/
structure QueryState where
  model : String
  censor : Censor
  fields : List String
  arbitrary_fields : List String := []
  queryset : QuerySet := {}
  result : Envelope := { status := true }
  case : Bool := true
  evaluated : Bool := true
  sliced : Bool := false

/-- `GenericQuery.__init__`: fields from the model's schema, a fresh
queryset over all rows, `result = {'status': True}`, `case`/`evaluated`
true, `sliced` false. -/
def initState (s : Schema) (model : String) (censor : Censor) : QueryState :=
  { model := model, censor := censor, fields := s.fieldNames model }

/-- Static context a pipeline run closes over: the Django settings and the
schema introspector. -/
structure Ctx where
  settings : Settings
  schema : Schema

/-- A pipeline command: its name-matching rule (`re.match(c.regex, field)`)
and its handler.  Handlers follow the source bodies in `dgeq/commands.py`,
which read the values they need from the whole query dict. -/
structure Command where
  regex : String → Bool
  run : Ctx → QueryState → QueryDict → Except PyError QueryState

def liftDgeq {α : Type} : Except DgeqError α → Except PyError α
  | .ok a => .ok a
  | .error e => .error (.dgeq e)

/-- The `Sort` command (`dgeq/commands.py` lines 399-421): validate every
sort key through `check_field` (stripping a leading `-`), then, if any key
was supplied, `queryset.order_by` with dots replaced by `__`.  It performs
no check of the query's sliced state. -/
def SortCmd : Command where
  regex := fun f => f == "c:sort"
  run := fun ctx st qd => do
    let fields := split_list_strings (qdGetlist qd "c:sort") ','
    for f in fields do
      let fname := if pyStartsWith f "-" then pyDrop f 1 else f
      let _ ← liftDgeq
        (check_field ctx.settings ctx.schema fname st.model st.censor
          st.arbitrary_fields)
    if fields.isEmpty then
      return st
    else
      let qs ← st.queryset.order_by (fields.map pyReplaceDot)
      return { st with queryset := qs }

/-- The `Subset` command (`dgeq/commands.py` lines 425-452): read `c:start`
(default `"0"`) and `c:limit` (default `"1"`), reject non-digit values with
`InvalidCommandError` (the limit branch names `c:start` as in the source),
then slice the queryset — `[start : start+limit]`, or `[start:]` when the
limit is 0.  It does not set the query's `sliced` flag. -/
def SubsetCmd : Command where
  regex := fun f => f == "c:start" || f == "c:limit"
  run := fun _ st qd => do
    let start := qdGet qd "c:start" "0"
    if !(pyIsdigit start) then
      throw (.dgeq (.invalidCommand "c:start"
        ("value must be a non-negative integers (received '" ++ start ++ "')")))
    let limit := qdGet qd "c:limit" "1"
    if !(pyIsdigit limit) then
      throw (.dgeq (.invalidCommand "c:start"
        ("value must be a non-negative integers (received '" ++ limit ++ "')")))
    let startN := pyToNat start
    let limitN := pyToNat limit
    if limitN ≠ 0 then
      return { st with queryset := qsSlice st.queryset startN (some (startN + limitN)) }
    else
      return { st with queryset := qsSlice st.queryset startN none }

/-- One key's dispatch in `GenericQuery.evaluate` (`dgeq/dgeq.py` lines
161-164 and 169-172): walk the command list, run every command whose rule
accepts the key, and record the pipeline positions invoked, in invocation
order (the trace stops at the first failing handler). -/
def runMatchingTr (ctx : Ctx) (cmds : List (Nat × Command)) (st : QueryState)
    (qd : QueryDict) (field : String) :
    (Except PyError QueryState) × List Nat :=
  match cmds with
  | [] => (.ok st, [])
  | (i, c) :: rest =>
    if c.regex field then
      match c.run ctx st qd with
      | .error e => (.error e, [i])
      | .ok st' =>
        let (r, tr) := runMatchingTr ctx rest st' qd field
        (r, i :: tr)
    else
      runMatchingTr ctx rest st qd field

/-- The state produced by one key's dispatch. -/
def runCommandsFor (ctx : Ctx) (cmds : List Command) (st : QueryState)
    (qd : QueryDict) (field : String) : Except PyError QueryState :=
  (runMatchingTr ctx cmds.enum st qd field).1

/-- The command loop of `GenericQuery.evaluate`: the outer iteration is
over the parameter keys in the order supplied, the inner iteration over
the command list in its declared order. -/
def runLoop (ctx : Ctx) (cmds : List Command) (qd : QueryDict)
    (st : QueryState) : Except PyError QueryState :=
  (qd : List (String × List String)).foldlM
    (fun s p => runCommandsFor ctx cmds s qd p.1) st

/-- `GenericQuery._evaluate` (`dgeq/dgeq.py` lines 131-150) for the scalar
part of a schema: censor the field set, execute the queryset, and
serialize each row over the visible fields.  A relation attribute's stored
row value is the identifier the storage collaborator exposes for it; the
join-expansion branch of `serialize_row` is never taken by the pipeline
inputs settled here (no `c:join` key), and the join tree's own prefetch
and fetch are modelled separately below. -/
def serializeRows (ctx : Ctx) (st : QueryState) (data : List Row) : List Row :=
  let fields := st.censor.censor ctx.settings ctx.schema st.model
    (st.fields ++ st.arbitrary_fields.filter (fun a => !(st.fields.contains a)))
  (runQuerySet data st.queryset).map
    (fun item => fields.map (fun f => (f, rowGet item f)))

/-- The body of the `try` block of `GenericQuery.evaluate` (`dgeq/dgeq.py`
lines 160-174): run the pre commands over each key, materialize `rows`
when evaluation is enabled, run the post commands, return the accumulated
result — or the first exception to escape. -/
def evaluateExc (ctx : Ctx) (preCmds postCmds : List Command) (qd : QueryDict)
    (data : List Row) (st0 : QueryState) : Except PyError Envelope := do
  let st ← runLoop ctx preCmds qd st0
  let st :=
    if st.evaluated then
      { st with result :=
          { st.result with rows := some (serializeRows ctx st data) } }
    else st
  let st ← runLoop ctx postCmds qd st
  return st.result

/-- `GenericQuery.evaluate` (`dgeq/dgeq.py` lines 153-192): the result of
the try block, a `DgeqError` rendered with its own code and message, or
any other exception rendered with `str(e)` as the message and the fixed
code `"UNKNOWN"`. -/
def evaluate (ctx : Ctx) (preCmds postCmds : List Command) (qd : QueryDict)
    (data : List Row) (st0 : QueryState) : Envelope :=
  match evaluateExc ctx preCmds postCmds qd data st0 with
  | .ok e => e
  | .error (.dgeq e) =>
    { status := false, message := some e.msg, code := some e.code }
  | .error (.other t) =>
    { status := false, message := some t, code := some "UNKNOWN" }

/-- The members of `DEFAULT_PRE_COMMANDS` (`dgeq/dgeq.py` lines 22-33)
embedded here, in their declared relative order (`Sort` precedes `Subset`);
the pipeline list is a settings extension point (`DGEQ_PRE_COMMANDS`), so
the theorems over the dispatch loop quantify over arbitrary command
lists. -/
def pipelineModel : List Command := [SortCmd, SubsetCmd]

/-- A node of the relation-expansion tree (`dgeq/joins.py`, class
`JoinQuery`, whose mixin fields come from `JoinMixin.__init__`): the
related model, the full path of the expanded relation (`__`-separated),
slicing, sort and sub-predicates applied inside the expansion, the
to-many flag, the visible scalar fields, the visible to-one and to-many
relation names, and the child nodes keyed by relation name. -/
inductive JoinQuery where
  | mk (model field : String) (start limit : Nat) (sort : List String)
      (filters : List Filter) (many : Bool)
      (fields unique_foreign_field many_foreign_fields : List String)
      (joins : List (String × JoinQuery))

def JoinQuery.model : JoinQuery → String
  | .mk m _ _ _ _ _ _ _ _ _ _ => m

def JoinQuery.field : JoinQuery → String
  | .mk _ f _ _ _ _ _ _ _ _ _ => f

def JoinQuery.sort : JoinQuery → List String
  | .mk _ _ _ _ so _ _ _ _ _ _ => so

def JoinQuery.filters : JoinQuery → List Filter
  | .mk _ _ _ _ _ fl _ _ _ _ _ => fl

def JoinQuery.many : JoinQuery → Bool
  | .mk _ _ _ _ _ _ ma _ _ _ _ => ma

def JoinQuery.fields : JoinQuery → List String
  | .mk _ _ _ _ _ _ _ fs _ _ _ => fs

def JoinQuery.unique_foreign_field : JoinQuery → List String
  | .mk _ _ _ _ _ _ _ _ uf _ _ => uf

def JoinQuery.many_foreign_fields : JoinQuery → List String
  | .mk _ _ _ _ _ _ _ _ _ mf _ => mf

def JoinQuery.joins : JoinQuery → List (String × JoinQuery)
  | .mk _ _ _ _ _ _ _ _ _ _ js => js

/-- `self.joins[k] = v`. -/
def JoinQuery.setJoin : JoinQuery → String → JoinQuery → JoinQuery
  | .mk m f st li so fl ma fs uf mf js, k, v =>
    .mk m f st li so fl ma fs uf mf (setAssoc js k v)

/-- `JoinMixin.add_field` (`dgeq/joins.py` lines 40-46): classify the named
field of this node's model into the to-one set (`OneToOneRel` /
`OneToOneField` / `ForeignKey`) or, for every other kind of field, the
to-many set.  A nonexistent name lets Django's `FieldDoesNotExist` escape
(a non-dgeq exception). -/
def add_field (s : Schema) (j : JoinQuery) (field_name : String) :
    Except PyError JoinQuery :=
  match j with
  | .mk m f st li so fl ma fs uf mf js =>
    match s.getField m field_name with
    | none => throw (.other ("FieldDoesNotExist: " ++ m ++ "." ++ field_name))
    | some fi =>
      if fi.is_relation && !fi.many then
        .ok (.mk m f st li so fl ma fs (addIfAbsent uf field_name) mf js)
      else
        .ok (.mk m f st li so fl ma fs uf (addIfAbsent mf field_name) js)

/-- `JoinQuery.__init__` (`dgeq/joins.py` lines 100-134): the visible field
set is the explicit `show` list, or all of the target model's fields minus
the `hide` list; hidden fields are removed, then relation fields are split
off into the to-one and to-many name sets. -/
def JoinQuery.init (s : Schema) (target : FieldInfo) (field : String)
    (shows : List String := []) (hides : List String := [])
    (start : Nat := 0) (limit : Nat := 0) (sort : List String := [])
    (filters : List Filter := [])
    (hidden_fields : String → List String := fun _ => []) :
    Except PyError JoinQuery := do
  let model := target.remote
  let hidden := hidden_fields model
  let fields0 :=
    if shows.isEmpty then
      (s.fieldNames model).filter (fun f => !(hides.contains f))
    else shows
  let fields1 := fields0.filter (fun f => !(hidden.contains f))
  let parts ← fields1.foldlM
    (fun (acc : List String × List String × List String) f =>
      match s.getField model f with
      | none => throw (PyError.other ("FieldDoesNotExist: " ++ model ++ "." ++ f))
      | some fi =>
        if fi.is_relation && !fi.many then
          .ok (acc.1, acc.2.1 ++ [f], acc.2.2)
        else if fi.is_relation && fi.many then
          .ok (acc.1, acc.2.1, acc.2.2 ++ [f])
        else
          .ok (acc.1 ++ [f], acc.2.1, acc.2.2))
    ([], [], [])
  return .mk model field start limit sort filters target.many
    parts.1 parts.2.1 parts.2.2 []

/-- The dotted-path field resolution `utils.get_field(base_name, model,
sep)` that `JoinMixin.add_join` relies on: follow relation segments from
the root model and return the final segment's field metadata. -/
def resolvePath (s : Schema) (model : String) : List String → Option FieldInfo
  | [] => none
  | [f] => get_field s f model
  | f :: rest =>
    match get_field s f model with
    | some fi => if fi.is_relation then resolvePath s fi.remote rest else none
    | none => none

/-- `JoinMixin.add_join` (`dgeq/joins.py` lines 49-75), with the dotted
path already split on the separator into its segments.  A multi-segment
path reuses the existing child node for its first segment (adding the next
segment to that node's fields) or lazily creates an intermediary
`JoinQuery(target, base_name, [next_segment])`, then recurses into that
child; a single-segment path stores the attached node under its name
(`self.joins[field] = join`). -/
def add_join (s : Schema) : List String → JoinQuery → JoinQuery → String →
    List String → Except PyError JoinQuery
  | [], _, self, _, _ => .ok self
  | [f], join, self, _, _ => .ok (self.setJoin f join)
  | f :: rest₁ :: rest₂, join, self, model, field_start =>
    match
      match getAssoc self.joins f with
      | some c => add_field s c rest₁
      | none =>
        match resolvePath s model (field_start ++ [f]) with
        | none =>
          .error (PyError.other
            ("FieldDoesNotExist: " ++
              String.intercalate "__" (field_start ++ [f])))
        | some target =>
          JoinQuery.init s target
            (String.intercalate "__" (field_start ++ [f])) [rest₁]
    with
    | .error e => .error e
    | .ok child =>
      match add_join s (rest₁ :: rest₂) join child model (field_start ++ [f])
      with
      | .error e => .error e
      | .ok child2 => .ok (self.setJoin f child2)

mutual

/-- The number of nodes of a join tree. -/
def nodeCount : JoinQuery → Nat
  | .mk _ _ _ _ _ _ _ _ _ _ js => 1 + nodeCountL js

def nodeCountL : List (String × JoinQuery) → Nat
  | [] => 0
  | (_, j) :: t => nodeCount j + nodeCountL t

end

mutual

/-- Storage round trips caused by `JoinQuery.prefetch` (`dgeq/joins.py`
lines 200-223) when the root queryset is executed, under the §6 storage
model: the `Prefetch(self.field, subquery)` hint is one batched query, each
`prefetch_related` of a non-expanded to-many field of the subquery is one
more, `select_related` joins into the same query (zero), and children
recurse.  Every count is independent of the number of rows. -/
def prefetchHints : JoinQuery → Nat
  | .mk _ _ _ _ _ _ _ _ _ mf js =>
    1 + (mf.filter (fun f => !(js.any (fun p => p.1 == f)))).length
      + prefetchHintsL js

def prefetchHintsL : List (String × JoinQuery) → Nat
  | [] => 0
  | (_, j) :: t => prefetchHints j + prefetchHintsL t

end

mutual

/-- Storage round trips caused by one invocation of `JoinQuery.fetch`
(`dgeq/joins.py` lines 226-284) on one parent row, with `k` sub-rows per
expanded to-many relation, under the §6 storage model: `_fetch_many` reads
the already eager-loaded relation data (`getattr(obj, field).all()`, no
round trip), but re-applying the node's sub-predicates (`Filter.apply`,
i.e. `queryset.filter`) or its sort (`order_by`) derives a fresh query
descriptor whose iteration is a new round trip for this row; slicing
already-materialized data stays in memory; `_fetch_unique` applies no
sub-predicates.  Child nodes are fetched once per sub-row (to-many) or
once (to-one). -/
def fetchQueries (k : Nat) : JoinQuery → Nat
  | .mk _ _ _ _ so fl ma _ _ _ js =>
    (if ma && !(fl.isEmpty && so.isEmpty) then 1 else 0)
      + (if ma then k else 1) * fetchQueriesL k js

def fetchQueriesL (k : Nat) : List (String × JoinQuery) → Nat
  | [] => 0
  | (_, j) :: t => fetchQueries k j + fetchQueriesL k t

end

/-- Total storage round trips for evaluating a query whose join map holds
the given trees, over `n` root rows with `k` sub-rows per expanded to-many
relation: one query for the root queryset itself, the eager-load hints
issued once while the queryset is prefetched (`Join.__call__` runs
`j.prefetch` once per top-level tree before any row is read), and the
per-row fetch cost for each of the `n` rows. -/
def totalQueries (joins : List JoinQuery) (n k : Nat) : Nat :=
  1 + (joins.map prefetchHints).sum + n * (joins.map (fetchQueries k)).sum

/-! Concrete fixtures used by witnesses and counterexamples. -/
/-- A settings object with no project-wide visibility declarations. -/
def emptySettings : Settings :=
  { DGEQ_PUBLIC_FIELDS := fun _ => none, DGEQ_PRIVATE_FIELDS := fun _ => none }

/-- A censor with no declarations at all (everything public). -/
def openCensor : Censor :=
  { public_fields := fun _ => none, private_fields := fun _ => none }

/-- A one-model schema: `country` with scalar fields `id`, `name`,
`population`. -/
def countrySchema : Schema :=
  ⟨fun m =>
    if m = "country" then
      [("id", { is_relation := false }), ("name", { is_relation := false }),
       ("population", { is_relation := false })]
    else []⟩

/-- A censor declaring `population` private on `country`
(`private_fields={Country: ["population"]}`). -/
def popPrivateCensor : Censor :=
  { public_fields := fun _ => none,
    private_fields := fun m => if m = "country" then some ["population"] else none }

/-- A chain schema `m0 → m1 → ⋯ → m8 → m9`, each model having one relation
field `r` to the next. -/
def chainSchema : Schema :=
  ⟨fun m =>
    if m = "m0" then [("r", { is_relation := true, remote := "m1" })]
    else if m = "m1" then [("r", { is_relation := true, remote := "m2" })]
    else if m = "m2" then [("r", { is_relation := true, remote := "m3" })]
    else if m = "m3" then [("r", { is_relation := true, remote := "m4" })]
    else if m = "m4" then [("r", { is_relation := true, remote := "m5" })]
    else if m = "m5" then [("r", { is_relation := true, remote := "m6" })]
    else if m = "m6" then [("r", { is_relation := true, remote := "m7" })]
    else if m = "m7" then [("r", { is_relation := true, remote := "m8" })]
    else if m = "m8" then [("r", { is_relation := true, remote := "m9" })]
    else []⟩

/-! Pipeline fixtures. -/
/-- Context over the country schema with default settings. -/
def ctxC : Ctx := ⟨emptySettings, countrySchema⟩

/-- Fresh query state over `country` with an open censor. -/
def st0C : QueryState := initState countrySchema "country" openCensor

/-- Six country rows. -/
def dataC : List Row :=
  [[("id", .int 1), ("name", .str "Uruguay"), ("population", .int 3)],
   [("id", .int 2), ("name", .str "Kenya"), ("population", .int 53)],
   [("id", .int 3), ("name", .str "France"), ("population", .int 67)],
   [("id", .int 4), ("name", .str "Japan"), ("population", .int 125)],
   [("id", .int 5), ("name", .str "Chad"), ("population", .int 16)],
   [("id", .int 6), ("name", .str "Peru"), ("population", .int 33)]]

/-- 201 rows, one scalar field each. -/
def dataBig : List Row :=
  List.replicate 201 [("id", FilterValue.int 0)]

/-! Claim C7 — relation-path attachment is idempotent and duplicates no
node. -/
/-- The model reached by following relation segments from `model` (the
schema chain that `utils.check_field` walks and that `add_join`'s
`base_name` paths re-resolve). -/
def pathModel (s : Schema) (model : String) : List String → Option String
  | [] => some model
  | f :: rest =>
    match get_field s f model with
    | some fi => if fi.is_relation then pathModel s fi.remote rest else none
    | none => none

/-- A relation path in the sense of the relation-expansion tree: every
traversed segment resolves to a relation, and every segment that will be
recorded in an intermediary node's field sets is itself a relation of the
model the chain reaches (the shape `JoinQuery.from_query_value` validates
before ever calling `add_join`). -/
def relSegsOK (s : Schema) (m : String) : List String → Bool
  | [] => true
  | [_] => true
  | f :: rf :: rest =>
    match get_field s f m with
    | some fi =>
      fi.is_relation &&
        (match s.getField fi.remote rf with
         | some fj => fj.is_relation
         | none => false) &&
        relSegsOK s fi.remote (rf :: rest)
    | none => false

mutual

/-- A join tree none of whose nodes carries fetch-time sub-predicates or a
sort spec (the inputs for which `_fetch_many` touches only eager-loaded
data). -/
def noFetchFilters : JoinQuery → Bool
  | .mk _ _ _ _ so fl _ _ _ _ js =>
    fl.isEmpty && so.isEmpty && noFetchFiltersL js

def noFetchFiltersL : List (String × JoinQuery) → Bool
  | [] => true
  | (_, c) :: t => noFetchFilters c && noFetchFiltersL t

end

/-- A sub-predicate `rivers.length > 2000` as the join command would
compile it. -/
def filterOne : Filter := ⟨"length", ">", .int 2000, true⟩

/-- A single-level to-many expansion carrying one sub-predicate. -/
def jFiltered : JoinQuery :=
  .mk "river" "rivers" 0 0 [] [filterOne] true ["name"] [] [] []

/-- Schema for the join witnesses: `root —(a, to-many)→ A`, `A` with a
to-many relation `b`, a to-one relation `c` and a scalar `x`. -/
def joinSchema : Schema :=
  ⟨fun m =>
    if m = "root" then
      [("a", { is_relation := true, remote := "A", many := true })]
    else if m = "A" then
      [("b", { is_relation := true, remote := "B", many := true }),
       ("c", { is_relation := true, remote := "C", many := false }),
       ("x", { is_relation := false })]
    else if m = "B" then [("y", { is_relation := false })]
    else if m = "C" then [("z", { is_relation := false })]
    else []⟩

/-- The node attached for path `a.b`. -/
def jb : JoinQuery := .mk "B" "a__b" 0 0 [] [] true ["y"] [] [] []

/-- The node attached for path `a.c`. -/
def jc : JoinQuery := .mk "C" "a__c" 0 0 [] [] false ["z"] [] [] []

/-- An empty join holder at the root model (the `JoinMixin` state of a
fresh `GenericQuery` over `root`). -/
def rootHolder : JoinQuery := .mk "root" "" 0 0 [] [] false [] [] [] []

/-- The tree produced by attaching `a.b` to the fresh holder: one lazily
created intermediary at `a` holding `jb` under `b`. -/
def tAB : JoinQuery :=
  .mk "root" "" 0 0 [] [] false [] [] []
    [("a", .mk "A" "a" 0 0 [] [] true [] [] ["b"] [("b", jb)])]

/-- The tree after additionally attaching `a.c`: the `a` node is reused,
now holding both children. -/
def tACB : JoinQuery :=
  .mk "root" "" 0 0 [] [] false [] [] []
    [("a", .mk "A" "a" 0 0 [] [] true [] ["c"] ["b"] [("b", jb), ("c", jc)])]

/-- A sort key and a pagination key, sort first. -/
def in1 : QueryDict := [("c:sort", ["name"]), ("c:start", ["4"])]

/-- The same two parameters with their keys permuted. -/
def in2 : QueryDict := [("c:start", ["4"]), ("c:sort", ["name"])]

/-- Scenario D's pagination (`c:start=4&c:limit=0`) followed by a sort
directive. -/
def qdC2a : QueryDict :=
  [("c:start", ["4"]), ("c:limit", ["0"]), ("c:sort", ["name"])]

/-- The same sort directive issued before the pagination keys. -/
def qdC2b : QueryDict :=
  [("c:sort", ["name"]), ("c:start", ["4"]), ("c:limit", ["0"])]

/-- The intermediary `a` node of `tAB`, with its `b` child attached (a
plain two-level expansion with no sub-predicates). -/
def jaB : JoinQuery := .mk "A" "a" 0 0 [] [] true [] [] ["b"] [("b", jb)]

/-! Claim C9 — visibility precedence order of `Censor.is_private`. -/
/-- C9: with permission checks disabled, `Censor.is_private` consults in
order the per-instance public lists, the per-instance private lists, the
project-wide `DGEQ_PUBLIC_FIELDS`, then the project-wide
`DGEQ_PRIVATE_FIELDS`; the first mapping containing the model decides (so
an instance-level declaration overrides the project-wide ones and an
instance-level public list makes any instance-level private list for the
same model irrelevant), and a field of a model absent from all four
mappings is public. -/
theorem C9_censor_precedence (st : Settings) (s : Schema) (c : Censor)
    (m f : String) (hperm : c.use_permissions = false) :
    (∀ l, c.public_fields m = some l →
      c.is_private st s m f = .ok (!(l.contains f)))
    ∧ (c.public_fields m = none → ∀ l, c.private_fields m = some l →
      c.is_private st s m f = .ok (l.contains f))
    ∧ (c.public_fields m = none → c.private_fields m = none →
      ∀ l, st.DGEQ_PUBLIC_FIELDS m = some l →
      c.is_private st s m f = .ok (!(l.contains f)))
    ∧ (c.public_fields m = none → c.private_fields m = none →
      st.DGEQ_PUBLIC_FIELDS m = none →
      ∀ l, st.DGEQ_PRIVATE_FIELDS m = some l →
      c.is_private st s m f = .ok (l.contains f))
    ∧ (c.public_fields m = none → c.private_fields m = none →
      st.DGEQ_PUBLIC_FIELDS m = none → st.DGEQ_PRIVATE_FIELDS m = none →
      c.is_private st s m f = .ok false) := by
  refine ⟨?_, ?_, ?_, ?_, ?_⟩ <;> intros <;>
    simp [Censor.is_private, hperm, pure, Except.pure, *]

/-- Witness for C9 at a concrete censor: the instance public list decides
even though an instance private list and both project-wide mappings also
mention the model. -/
theorem C9_censor_precedence_witness :
    Censor.is_private
      { DGEQ_PUBLIC_FIELDS := fun m =>
          if m = "country" then some ["population"] else none,
        DGEQ_PRIVATE_FIELDS := fun m =>
          if m = "country" then some ["name"] else none }
      countrySchema
      { public_fields := fun m => if m = "country" then some ["name"] else none,
        private_fields := fun m => if m = "country" then some ["name"] else none }
      "country" "population" = .ok true := by
  have h :=
    (C9_censor_precedence
      { DGEQ_PUBLIC_FIELDS := fun m =>
          if m = "country" then some ["population"] else none,
        DGEQ_PRIVATE_FIELDS := fun m =>
          if m = "country" then some ["name"] else none }
      countrySchema
      { public_fields := fun m => if m = "country" then some ["name"] else none,
        private_fields := fun m => if m = "country" then some ["name"] else none }
      "country" "population" rfl).1 ["name"] (by simp)
  simpa using h

/-! Claim C5 — depth boundary of `check_field`. -/
/-- C5: a path whose number of dot-separated segments equals
`DGEQ_MAX_NESTED_FIELD_DEPTH` fails with the path-depth error, and for a
path with exactly one segment fewer the depth guard is transparent: the
path resolves to whatever `_check_field` resolves it to, in particular it
succeeds whenever the segment-wise resolution succeeds. -/
theorem C5_depth_boundary (st : Settings) (s : Schema) (field model : String)
    (censor : Censor) (arb : List String) :
    ((pySplit field '.').length = DGEQ_MAX_NESTED_FIELD_DEPTH →
      check_field st s field model censor arb = .error (.fieldDepth field))
    ∧ ((pySplit field '.').length = DGEQ_MAX_NESTED_FIELD_DEPTH - 1 →
      ∀ r, _check_field st s (pySplit field '.') model censor arb = .ok r →
        check_field st s field model censor arb = .ok r) := by
  constructor
  · intro h
    simp [check_field, h, throw, throwThe, MonadExceptOf.throw]
  · intro h r hr
    rw [check_field]
    simp only [h]
    norm_num [DGEQ_MAX_NESTED_FIELD_DEPTH]
    exact hr

/-- Witness for C5 on the chain schema: the 10-segment path fails with the
depth error while the 9-segment path resolves to `(m8, r)`. -/
theorem C5_depth_boundary_witness :
    check_field emptySettings chainSchema "r.r.r.r.r.r.r.r.r.r" "m0"
      openCensor [] = .error (.fieldDepth "r.r.r.r.r.r.r.r.r.r")
    ∧ check_field emptySettings chainSchema "r.r.r.r.r.r.r.r.r" "m0"
      openCensor [] = .ok ("m8", "r") := by
  constructor
  · exact (C5_depth_boundary emptySettings chainSchema "r.r.r.r.r.r.r.r.r.r"
      "m0" openCensor []).1 (by decide)
  · exact (C5_depth_boundary emptySettings chainSchema "r.r.r.r.r.r.r.r.r"
      "m0" openCensor []).2 (by decide) ("m8", "r") (by decide)

/-! Claim C3 — a censored attribute filters like a nonexistent one. -/
/-- C3: building a filter on an attribute the visibility policy marks
private fails with the unknown-field error — the very error produced for a
nonexistent attribute — and with nothing else (in particular not the
invalid-directive error, and no silently-empty filter is produced). -/
theorem C3_private_filter_unknown_field (st : Settings) (s : Schema)
    (model f value : String) (case : Bool) (arb : List String) (c : Censor)
    (hsingle : pySplit f '.' = [f]) :
    (c.is_private st s model f = .ok true →
      Filter.init st s f value case model arb c =
        .error (.unknownField model f))
    ∧ (c.is_private st s model f = .ok false → arb.contains f = false →
      get_field s f model = none →
      Filter.init st s f value case model arb c =
        .error (.unknownField model f)) := by
  constructor
  · intro hpriv
    simp [Filter.init, check_field, hsingle, DGEQ_MAX_NESTED_FIELD_DEPTH,
      _check_field, hpriv, throw, throwThe, MonadExceptOf.throw, Except.bind,
      bind, Except.map, Functor.map]
  · intro hpriv habs hget
    have habs2 : f ∉ arb := by simpa using habs
    simp [Filter.init, check_field, hsingle, DGEQ_MAX_NESTED_FIELD_DEPTH,
      _check_field, hpriv, habs2, hget, throw, throwThe, MonadExceptOf.throw,
      Except.bind, bind, Except.map, Functor.map, pure, Except.pure]

/-- Witness for C3: with `population` declared private on `country`, the
filter `population=>100` fails with the unknown-field error, exactly as the
filter on the nonexistent `foo` does. -/
theorem C3_private_filter_unknown_field_witness :
    Filter.init emptySettings countrySchema "population" ">100" true
      "country" [] popPrivateCensor =
      .error (.unknownField "country" "population")
    ∧ Filter.init emptySettings countrySchema "foo" ">100" true
      "country" [] popPrivateCensor =
      .error (.unknownField "country" "foo") := by
  constructor
  · exact (C3_private_filter_unknown_field emptySettings countrySchema
      "country" "population" ">100" true [] popPrivateCensor (by decide)).1
      (by decide)
  · exact (C3_private_filter_unknown_field emptySettings countrySchema
      "country" "foo" ">100" true [] popPrivateCensor (by decide)).2
      (by decide) (by decide) (by decide)

/-! Claim C6 — `!` and `~` compile to negated predicates. -/
/-- C6: whenever the empty-modifier (equality) predicate over a literal
compiles, the `!`-modifier predicate over the same literal compiles to the
same lookup with the negation flag set, and its evaluation on every row is
the logical negation of the equality predicate's; in general a compiled
predicate is negated exactly for the modifiers in
`EXCLUDE_SEARCH_MODIFIERS` (`!` and `~`) and direct for all others. -/
theorem C6_modifier_negation :
    (∀ (fld : String) (case : Bool) (v : FilterValue) (q : Q),
      Filter.get ⟨fld, "", v, case⟩ = .ok q →
        Filter.get ⟨fld, "!", v, case⟩ = .ok ⟨q.field, q.lookup, q.value, true⟩
        ∧ q.negated = false
        ∧ ∀ r : Row, evalQ ⟨q.field, q.lookup, q.value, true⟩ r = !(evalQ q r))
    ∧ (∀ (fld m : String) (case : Bool) (v : FilterValue) (q : Q),
      Filter.get ⟨fld, m, v, case⟩ = .ok q →
        q.negated = EXCLUDE_SEARCH_MODIFIERS.contains m) := by
  constructor
  · intro fld case v q h
    cases v with
    | null =>
      have e1 : Filter.get ⟨fld, "", .null, case⟩ =
          .ok ⟨fld, .exact, .null, false⟩ := rfl
      rw [e1] at h
      injection h with h
      subst h
      exact ⟨rfl, rfl, fun r => by simp [evalQ]⟩
    | int n =>
      have e1 : Filter.get ⟨fld, "", .int n, case⟩ =
          .ok ⟨fld, .exact, .int n, false⟩ := rfl
      rw [e1] at h
      injection h with h
      subst h
      exact ⟨rfl, rfl, fun r => by simp [evalQ]⟩
    | float raw =>
      have e1 : Filter.get ⟨fld, "", .float raw, case⟩ =
          .error (.searchModifier "" (.float raw)) := rfl
      rw [e1] at h
      exact Except.noConfusion h
    | dt iso =>
      have e1 : Filter.get ⟨fld, "", .dt iso, case⟩ =
          .ok ⟨fld, .exact, .dt iso, false⟩ := rfl
      rw [e1] at h
      injection h with h
      subst h
      exact ⟨rfl, rfl, fun r => by simp [evalQ]⟩
    | str sVal =>
      have e1 : Filter.get ⟨fld, "", .str sVal, case⟩ =
          .ok ⟨fld, if case then Lookup.exact else Lookup.iexact,
               .str sVal, false⟩ := rfl
      rw [e1] at h
      injection h with h
      subst h
      exact ⟨rfl, rfl, fun r => by simp [evalQ]⟩
  · intro fld m case v q h
    unfold Filter.get at h
    rcases ht : FILTERS_TABLE m v.typeOf with _ | entry
    · rw [ht] at h
      exact Except.noConfusion h
    · rw [ht] at h
      -- direct versus negated branch, decided by the exclusion list
      cases hc : EXCLUDE_SEARCH_MODIFIERS.contains m
      · rw [hc] at h
        injection h with h
        rw [← h]
      · rw [hc] at h
        injection h with h
        rw [← h]

/-- Witness for C6: the equality predicate on the integer literal `5`
compiles to the direct `exact` lookup, and the `!` predicate to its negated
form. -/
theorem C6_modifier_negation_witness :
    Filter.get ⟨"name", "!", .int 5, true⟩ =
      .ok ⟨"name", .exact, .int 5, true⟩ := by
  exact (C6_modifier_negation.1 "name" true (.int 5)
    ⟨"name", .exact, .int 5, false⟩ (by decide)).1

/-! Claim C10 — the `Subset` default limit is 1 and no maximum is applied. -/
lemma applySlice_length_le (l : List Row) (a b : Nat) :
    (applySlice l a (some b)).length ≤ b - a := by
  simp only [applySlice, List.length_drop, List.length_take]
  omega

/-- C10: when no `c:limit` value is supplied, `Subset` slices with the
default limit 1 — the window `[start, start+1)`, hence at most one result
row — and for any supplied digit limit it slices with exactly that limit:
neither `DGEQ_DEFAULT_LIMIT` (10) nor `DGEQ_MAX_LIMIT` (200) enters the
computation, so no upper bound is enforced on an explicit `c:limit`. -/
theorem C10_subset_default_limit (ctx : Ctx) (st : QueryState) (qd : QueryDict)
    (hstart : pyIsdigit (qdGet qd "c:start" "0") = true) :
    (getAssoc (qd : List (String × List String)) "c:limit" = none →
      SubsetCmd.run ctx st qd =
        .ok { st with
              queryset := qsSlice st.queryset (pyToNat (qdGet qd "c:start" "0"))
                (some (pyToNat (qdGet qd "c:start" "0") + 1)) }
      ∧ ∀ data : List Row,
        (runQuerySet data (qsSlice st.queryset (pyToNat (qdGet qd "c:start" "0"))
          (some (pyToNat (qdGet qd "c:start" "0") + 1)))).length ≤ 1)
    ∧ (∀ lim : String, qdGet qd "c:limit" "1" = lim → pyIsdigit lim = true →
        pyToNat lim ≠ 0 →
        SubsetCmd.run ctx st qd =
          .ok { st with
                queryset := qsSlice st.queryset (pyToNat (qdGet qd "c:start" "0"))
                  (some (pyToNat (qdGet qd "c:start" "0") + pyToNat lim)) })
    ∧ DGEQ_DEFAULT_LIMIT = 10 ∧ DGEQ_MAX_LIMIT = 200 := by
  have hbound : ∀ data : List Row, ∀ n : Nat,
      (runQuerySet data (qsSlice st.queryset n (some (n + 1)))).length ≤ 1 := by
    intro data n
    rcases hstop : st.queryset.sliceStop with _ | m
    · have h := applySlice_length_le
        (sortRows (keyLe (qsSlice st.queryset n (some (n + 1))).order)
          (data.filter (fun r =>
            (qsSlice st.queryset n (some (n + 1))).filters.all (fun q => evalQ q r))))
        (st.queryset.sliceStart + n) (st.queryset.sliceStart + (n + 1))
      simp only [runQuerySet, qsSlice, hstop] at *
      omega
    · have h := applySlice_length_le
        (sortRows (keyLe (qsSlice st.queryset n (some (n + 1))).order)
          (data.filter (fun r =>
            (qsSlice st.queryset n (some (n + 1))).filters.all (fun q => evalQ q r))))
        (st.queryset.sliceStart + n) (min (st.queryset.sliceStart + (n + 1)) m)
      simp only [runQuerySet, qsSlice, hstop] at *
      omega
  refine ⟨?_, ?_, rfl, rfl⟩
  · intro hnone
    have hlim : qdGet qd "c:limit" "1" = "1" := by
      simp [qdGet, hnone]
    constructor
    · have h1 : pyToNat "1" = 1 := by decide
      have hd1 : pyIsdigit "1" = true := by decide
      simp [SubsetCmd, hstart, hlim, h1, hd1, pure, Except.pure, bind,
        Except.bind]
    · intro data
      exact hbound data _
  · intro lim hlim hdig hnz
    simp [SubsetCmd, hstart, hlim, hdig, hnz, pure, Except.pure, bind,
      Except.bind]

/-- Witness for C10: `c:start=4` with no `c:limit` slices `[4,5)`, and an
explicit `c:limit=201` above `DGEQ_MAX_LIMIT` is accepted verbatim,
yielding 201 result rows. -/
theorem C10_subset_default_limit_witness :
    SubsetCmd.run ctxC st0C [("c:start", ["4"])] =
      .ok { st0C with queryset := qsSlice st0C.queryset 4 (some (4 + 1)) }
    ∧ SubsetCmd.run ctxC st0C [("c:start", ["0"]), ("c:limit", ["201"])] =
      .ok { st0C with queryset := qsSlice st0C.queryset 0 (some (0 + 201)) }
    ∧ (runQuerySet dataBig (qsSlice st0C.queryset 0 (some (0 + 201)))).length
        = 201
    ∧ 201 > DGEQ_MAX_LIMIT := by
  refine ⟨?_, ?_, ?_, by decide⟩
  · have e : pyToNat (qdGet [("c:start", ["4"])] "c:start" "0") = 4 := by
      decide
    have h := ((C10_subset_default_limit ctxC st0C [("c:start", ["4"])]
      (by decide)).1 (by decide)).1
    rw [e] at h
    exact h
  · have e : pyToNat (qdGet [("c:start", ["0"]), ("c:limit", ["201"])]
        "c:start" "0") = 0 := by decide
    have e2 : pyToNat "201" = 201 := by decide
    have h := (C10_subset_default_limit ctxC st0C
      [("c:start", ["0"]), ("c:limit", ["201"])] (by decide)).2.1
      "201" (by decide) (by decide) (by decide)
    rw [e, e2] at h
    exact h
  · have hins : ∀ (x : Row) (l : List Row),
        insertSorted (keyLe []) x l = x :: l := by
      intro x l; cases l <;> simp [insertSorted, keyLe]
    have hsort : ∀ l : List Row, sortRows (keyLe []) l = l := by
      intro l; induction l with
      | nil => rfl
      | cons x t ih => simp [sortRows, ih, hins]
    have hlen : dataBig.length = 201 := by
      rw [dataBig, List.length_replicate]
    have hf : ∀ l : List Row,
        l.filter (fun r => List.all [] (fun q => evalQ q r)) = l := by
      intro l; simp
    show (applySlice (sortRows (keyLe [])
      (dataBig.filter (fun r => List.all [] (fun q => evalQ q r))))
      0 (some 201)).length = 201
    rw [hf, hsort]
    simp [applySlice, hlen]

/-! Association-list lemmas for the Python-dict model. -/
lemma map_set_find_eq {α : Type} (l : List (String × α)) (k : String) (v : α) :
    (l.map (fun p => if p.1 == k then (k, v) else p)).find?
        (fun p => p.1 == k) =
      (l.find? (fun p => p.1 == k)).map (fun _ => (k, v)) := by
  induction l with
  | nil => rfl
  | cons p t ih =>
    simp only [List.map_cons]
    by_cases hp : (p.1 == k) = true
    · rw [if_pos hp, List.find?_cons, List.find?_cons]
      simp only [hp, cond_true]
      simp
    · rw [if_neg hp, List.find?_cons, List.find?_cons]
      simp only [hp, cond_false]
      exact ih

lemma map_set_find_ne {α : Type} (l : List (String × α)) (k k' : String)
    (v : α) (hne : k' ≠ k) :
    (l.map (fun p => if p.1 == k then (k, v) else p)).find?
        (fun p => p.1 == k') =
      l.find? (fun p => p.1 == k') := by
  induction l with
  | nil => rfl
  | cons p t ih =>
    simp only [List.map_cons]
    by_cases hp : (p.1 == k) = true
    · have hpk : p.1 = k := by simpa using hp
      have h1 : (k == k') = false := by simp [Ne.symm hne]
      have h2 : (p.1 == k') = false := by simp [hpk, Ne.symm hne]
      rw [if_pos hp, List.find?_cons, List.find?_cons]
      simp only [h1, h2, cond_false]
      exact ih
    · rw [if_neg hp, List.find?_cons, List.find?_cons]
      cases hq : (p.1 == k')
      · simp only [cond_false]
        exact ih
      · simp only [cond_true]

lemma map_set_keys {α : Type} (l : List (String × α)) (k : String) (v : α) :
    (l.map (fun p => if p.1 == k then (k, v) else p)).map Prod.fst =
      l.map Prod.fst := by
  induction l with
  | nil => rfl
  | cons p t ih =>
    simp only [List.map_cons]
    by_cases hp : (p.1 == k) = true
    · have hpk : p.1 = k := by simpa using hp
      rw [if_pos hp]
      simp only [List.map_cons, ih]
      rw [hpk]
    · rw [if_neg hp]
      simp only [List.map_cons, ih]

lemma map_set_map_set {α : Type} (l : List (String × α)) (k : String)
    (v w : α) :
    (l.map (fun p => if p.1 == k then (k, v) else p)).map
        (fun p => if p.1 == k then (k, w) else p) =
      l.map (fun p => if p.1 == k then (k, w) else p) := by
  induction l with
  | nil => rfl
  | cons p t ih =>
    simp only [List.map_cons]
    by_cases hp : (p.1 == k) = true
    · rw [if_pos hp, if_pos (by simp : (((k, v) : String × α).1 == k) = true),
        ih, if_pos hp]
    · rw [if_neg hp, ih]

lemma map_set_noop {α : Type} (l : List (String × α)) (k : String) (v : α)
    (h : l.any (fun p => p.1 == k) = false) :
    l.map (fun p => if p.1 == k then (k, v) else p) = l := by
  induction l with
  | nil => rfl
  | cons p t ih =>
    simp only [List.any_cons, Bool.or_eq_false_iff] at h
    simp only [List.map_cons]
    rw [if_neg (by simp [h.1]), ih h.2]

lemma any_setAssoc {α : Type} (l : List (String × α)) (k : String) (v : α) :
    (setAssoc l k v).any (fun p => p.1 == k) = true := by
  unfold setAssoc
  by_cases h : l.any (fun p => p.1 == k) = true
  · rw [if_pos h]
    obtain ⟨p, hp, hpk⟩ := List.any_eq_true.1 h
    exact List.any_eq_true.2
      ⟨(k, v), List.mem_map.2 ⟨p, hp, by simp [hpk]⟩, by simp⟩
  · rw [if_neg h]
    simp

lemma getAssoc_setAssoc {α : Type} (l : List (String × α)) (k : String)
    (v : α) : getAssoc (setAssoc l k v) k = some v := by
  unfold setAssoc getAssoc
  by_cases h : l.any (fun p => p.1 == k) = true
  · rw [if_pos h, map_set_find_eq]
    obtain ⟨p, hp, hpk⟩ := List.any_eq_true.1 h
    have hnn : l.find? (fun p => p.1 == k) ≠ none := by
      rw [Ne, List.find?_eq_none]
      intro hall
      exact absurd hpk (by simpa using hall p hp)
    obtain ⟨w, hw⟩ := Option.ne_none_iff_exists'.1 hnn
    rw [hw]
    rfl
  · rw [if_neg h, List.find?_append]
    have hnone : l.find? (fun p => p.1 == k) = none := by
      rw [List.find?_eq_none]
      intro p hp hc
      exact h (List.any_eq_true.2 ⟨p, hp, hc⟩)
    rw [hnone]
    simp

lemma getAssoc_setAssoc_ne {α : Type} (l : List (String × α)) (k k' : String)
    (v : α) (hne : k' ≠ k) :
    getAssoc (setAssoc l k v) k' = getAssoc l k' := by
  unfold setAssoc getAssoc
  by_cases h : l.any (fun p => p.1 == k) = true
  · rw [if_pos h, map_set_find_ne _ _ _ _ hne]
  · rw [if_neg h, List.find?_append]
    have h2 : List.find? (fun p => p.1 == k') [(k, v)] = none := by
      have hk : (k == k') = false := by simp [Ne.symm hne]
      rw [List.find?_cons]
      simp [hk]
    rw [h2]
    cases hf : l.find? (fun p => p.1 == k') <;> rfl

lemma setAssoc_setAssoc {α : Type} (l : List (String × α)) (k : String)
    (v w : α) : setAssoc (setAssoc l k v) k w = setAssoc l k w := by
  have hany := any_setAssoc l k v
  rw [setAssoc, if_pos hany]
  unfold setAssoc
  by_cases h : l.any (fun p => p.1 == k) = true
  · rw [if_pos h, if_pos h, map_set_map_set]
  · rw [if_neg h, if_neg h, List.map_append,
      map_set_noop l k w (Bool.eq_false_iff.mpr h)]
    simp

lemma keys_setAssoc {α : Type} (l : List (String × α)) (k : String) (v : α) :
    (setAssoc l k v).map Prod.fst =
      if l.any (fun p => p.1 == k) = true then l.map Prod.fst
      else l.map Prod.fst ++ [k] := by
  unfold setAssoc
  by_cases h : l.any (fun p => p.1 == k) = true
  · rw [if_pos h, if_pos h, map_set_keys]
  · rw [if_neg h, if_neg h]
    simp

lemma pathModel_snoc (s : Schema) (f : String) :
    ∀ (pre : List String) (root m : String) (fi : FieldInfo),
      pathModel s root pre = some m → get_field s f m = some fi →
      fi.is_relation = true →
      pathModel s root (pre ++ [f]) = some fi.remote := by
  intro pre
  induction pre with
  | nil =>
    intro root m fi h hg hrel
    simp only [pathModel, Option.some.injEq] at h
    subst h
    simp [pathModel, hg, hrel]
  | cons g pre2 ih =>
    intro root m fi h hg hrel
    simp only [pathModel] at h
    simp only [List.cons_append, pathModel]
    cases hgg : get_field s g root with
    | none => simp only [hgg] at h; exact absurd h (by simp)
    | some fig =>
      simp only [hgg] at h ⊢
      by_cases hrg : fig.is_relation = true
      · rw [if_pos hrg] at h ⊢
        exact ih _ _ _ h hg hrel
      · rw [if_neg hrg] at h
        exact absurd h (by simp)

lemma resolvePath_of_pathModel (s : Schema) (f : String) :
    ∀ (pre : List String) (root m : String), pathModel s root pre = some m →
      resolvePath s root (pre ++ [f]) = get_field s f m := by
  intro pre
  induction pre with
  | nil =>
    intro root m h
    simp only [pathModel, Option.some.injEq] at h
    subst h
    rfl
  | cons g pre2 ih =>
    intro root m h
    simp only [pathModel] at h
    cases hgg : get_field s g root with
    | none => simp only [hgg] at h; exact absurd h (by simp)
    | some fig =>
      simp only [hgg] at h
      by_cases hrg : fig.is_relation = true
      · rw [if_pos hrg] at h
        have hrec := ih fig.remote m h
        cases hpp : pre2 ++ [f] with
        | nil => exact absurd hpp (by simp)
        | cons a rest =>
          have hsh : (g :: pre2) ++ [f] = g :: a :: rest := by
            simp [hpp]
          rw [hsh]
          show (match get_field s g root with
            | some fi =>
              if fi.is_relation then resolvePath s fi.remote (a :: rest)
              else none
            | none => none) = get_field s f m
          simp only [hgg]
          rw [if_pos hrg, ← hpp]
          exact hrec
      · rw [if_neg hrg] at h
        exact absurd h (by simp)

lemma setJoin_joins (t : JoinQuery) (k : String) (v : JoinQuery) :
    (t.setJoin k v).joins = setAssoc t.joins k v := by
  cases t
  rfl

lemma setJoin_model (t : JoinQuery) (k : String) (v : JoinQuery) :
    (t.setJoin k v).model = t.model := by
  cases t
  rfl

lemma setJoin_uff (t : JoinQuery) (k : String) (v : JoinQuery) :
    (t.setJoin k v).unique_foreign_field = t.unique_foreign_field := by
  cases t
  rfl

lemma setJoin_mff (t : JoinQuery) (k : String) (v : JoinQuery) :
    (t.setJoin k v).many_foreign_fields = t.many_foreign_fields := by
  cases t
  rfl

lemma setJoin_setJoin (t : JoinQuery) (k : String) (v w : JoinQuery) :
    (t.setJoin k v).setJoin k w = t.setJoin k w := by
  cases t
  simp only [JoinQuery.setJoin]
  rw [setAssoc_setAssoc]

lemma contains_addIfAbsent (l : List String) (x : String) :
    (addIfAbsent l x).contains x = true := by
  unfold addIfAbsent
  by_cases h : l.contains x = true
  · rw [if_pos h]
    exact h
  · rw [if_neg h]
    simp

lemma addIfAbsent_of_contains (l : List String) (x : String)
    (h : l.contains x = true) : addIfAbsent l x = l := by
  unfold addIfAbsent
  rw [if_pos h]

/-- `add_field` on a node that already records the field in the matching
set leaves the node unchanged. -/
lemma add_field_self (s : Schema) (c : JoinQuery) (f : String)
    (fi : FieldInfo) (hg : s.getField c.model f = some fi)
    (hmem : (if fi.is_relation && !fi.many then c.unique_foreign_field
      else c.many_foreign_fields).contains f = true) :
    add_field s c f = .ok c := by
  cases c with
  | mk m fl st li so flt ma fs uf mf js =>
    simp only [JoinQuery.model] at hg
    unfold add_field
    simp only [hg]
    by_cases hrel : (fi.is_relation && !fi.many) = true
    · rw [if_pos hrel] at hmem ⊢
      simp only [JoinQuery.unique_foreign_field] at hmem
      rw [addIfAbsent_of_contains _ _ hmem]
    · rw [if_neg hrel] at hmem ⊢
      simp only [JoinQuery.many_foreign_fields] at hmem
      rw [addIfAbsent_of_contains _ _ hmem]

/-- The successful results of `add_field`: same node with the field added
to one of the relation sets. -/
lemma add_field_ok (s : Schema) (c : JoinQuery) (f : String) (c2 : JoinQuery)
    (h : add_field s c f = .ok c2) :
    ∃ fi, s.getField c.model f = some fi ∧
      c2.model = c.model ∧ c2.joins = c.joins ∧
      (if fi.is_relation && !fi.many then c2.unique_foreign_field
        else c2.many_foreign_fields).contains f = true ∧
      (if fi.is_relation && !fi.many then c2.many_foreign_fields = c.many_foreign_fields
        else c2.unique_foreign_field = c.unique_foreign_field) := by
  cases c with
  | mk m fl st li so flt ma fs uf mf js =>
    simp only [add_field] at h
    cases hg : s.getField m f with
    | none =>
      simp only [hg] at h
      exact absurd h (by simp [throw, throwThe, MonadExceptOf.throw])
    | some fi =>
      simp only [hg] at h
      refine ⟨fi, hg, ?_⟩
      by_cases hrel : (fi.is_relation && !fi.many) = true
      · rw [if_pos hrel] at h
        injection h with h
        subst h
        rw [if_pos hrel, if_pos hrel]
        exact ⟨rfl, rfl, contains_addIfAbsent uf f, rfl⟩
      · rw [if_neg hrel] at h
        injection h with h
        subst h
        rw [if_neg hrel, if_neg hrel]
        exact ⟨rfl, rfl, contains_addIfAbsent mf f, rfl⟩

/-- A successful `add_join` only rewrites the `joins` map of the node it is
called on. -/
lemma add_join_comps (s : Schema) (segs : List String) (j t t2 : JoinQuery)
    (root : String) (pre : List String)
    (h : add_join s segs j t root pre = .ok t2) :
    t2.model = t.model ∧
    t2.unique_foreign_field = t.unique_foreign_field ∧
    t2.many_foreign_fields = t.many_foreign_fields := by
  cases segs with
  | nil =>
    unfold add_join at h
    injection h with h
    subst h
    exact ⟨rfl, rfl, rfl⟩
  | cons f rest =>
    cases rest with
    | nil =>
      unfold add_join at h
      injection h with h
      subst h
      exact ⟨setJoin_model _ _ _, setJoin_uff _ _ _, setJoin_mff _ _ _⟩
    | cons r rest2 =>
      unfold add_join at h
      cases hc : (match getAssoc t.joins f with
        | some c => add_field s c r
        | none =>
          match resolvePath s root (pre ++ [f]) with
          | none =>
            .error (PyError.other
              ("FieldDoesNotExist: " ++ String.intercalate "__" (pre ++ [f])))
          | some target =>
            JoinQuery.init s target (String.intercalate "__" (pre ++ [f])) [r]) with
      | error e =>
        simp only [hc] at h
        exact absurd h (by simp)
      | ok child =>
        simp only [hc] at h
        cases hrec : add_join s (r :: rest2) j child root (pre ++ [f]) with
        | error e =>
          simp only [hrec] at h
          exact absurd h (by simp)
        | ok child2 =>
          simp only [hrec] at h
          injection h with h
          subst h
          exact ⟨setJoin_model _ _ _, setJoin_uff _ _ _, setJoin_mff _ _ _⟩

/-- Evaluation of the intermediary-node constructor call
`JoinQuery(target, base_name, [field_name])` of `add_join`: one visible
field, classified by its schema metadata. -/
lemma init_single (s : Schema) (target : FieldInfo) (fname rf : String)
    (fj : FieldInfo) (hg : s.getField target.remote rf = some fj) :
    JoinQuery.init s target fname [rf] =
      .ok (.mk target.remote fname 0 0 [] [] target.many
        (if fj.is_relation then [] else [rf])
        (if fj.is_relation && !fj.many then [rf] else [])
        (if fj.is_relation && fj.many then [rf] else [])
        []) := by
  cases hr : fj.is_relation <;> cases hm : fj.many <;>
    simp [JoinQuery.init, hg, hr, hm, List.foldlM, bind, Except.bind, pure,
      Except.pure]

/-- Every successful multi-segment attachment stores some node under the
path's first segment and changes nothing else at the top level. -/
lemma add_join_cons_shape (s : Schema) (f : String) (rest : List String)
    (j t t1 : JoinQuery) (root : String) (pre : List String)
    (h : add_join s (f :: rest) j t root pre = .ok t1) :
    ∃ v, t1 = t.setJoin f v := by
  cases rest with
  | nil =>
    unfold add_join at h
    injection h with h
    exact ⟨j, h.symm⟩
  | cons r rest2 =>
    unfold add_join at h
    cases hc : (match getAssoc t.joins f with
      | some c => add_field s c r
      | none =>
        match resolvePath s root (pre ++ [f]) with
        | none =>
          .error (PyError.other
            ("FieldDoesNotExist: " ++ String.intercalate "__" (pre ++ [f])))
        | some target =>
          JoinQuery.init s target (String.intercalate "__" (pre ++ [f])) [r]) with
    | error e =>
      simp only [hc] at h
      exact absurd h (by simp)
    | ok child =>
      simp only [hc] at h
      cases hrec : add_join s (r :: rest2) j child root (pre ++ [f]) with
      | error e =>
        simp only [hrec] at h
        exact absurd h (by simp)
      | ok child2 =>
        simp only [hrec] at h
        injection h with h
        exact ⟨child2, h.symm⟩

/-- C7: attaching a relation path (every traversed and recorded segment a
relation) that has already been attached is a no-op — the tree is
unchanged, so the same path twice yields one node per distinct prefix —
and any attachment whose first segment already has a node reuses it: the
top-level key list gains the segment only when it was absent, never a
duplicate. -/
theorem C7_add_join_idempotent_no_duplicate (s : Schema) :
    (∀ (segs : List String) (j t t1 : JoinQuery) (root m : String)
        (pre : List String),
      pathModel s root pre = some m → relSegsOK s m segs = true →
      add_join s segs j t root pre = .ok t1 →
      add_join s segs j t1 root pre = .ok t1)
    ∧ (∀ (f : String) (rest : List String) (j t t1 : JoinQuery)
        (root : String) (pre : List String),
      add_join s (f :: rest) j t root pre = .ok t1 →
      t1.joins.map Prod.fst =
        (if t.joins.any (fun p => p.1 == f) = true then t.joins.map Prod.fst
         else t.joins.map Prod.fst ++ [f])) := by
  constructor
  · intro segs
    induction segs with
    | nil =>
      intro j t t1 root m pre hp hr h
      unfold add_join at h ⊢
      injection h with h
      subst h
      rfl
    | cons f rest ih =>
      intro j t t1 root m pre hp hr h
      cases rest with
      | nil =>
        unfold add_join at h ⊢
        injection h with h
        subst h
        rw [setJoin_setJoin]
      | cons r rest2 =>
        simp only [relSegsOK] at hr
        cases hgf : get_field s f m with
        | none =>
          simp only [hgf] at hr
          exact absurd hr (by simp)
        | some fi0 =>
          simp only [hgf, Bool.and_eq_true] at hr
          obtain ⟨⟨hrel0, hfj0⟩, hrest⟩ := hr
          cases hgr : s.getField fi0.remote r with
          | none =>
            simp only [hgr] at hfj0
            exact absurd hfj0 (by simp)
          | some fj =>
            simp only [hgr] at hfj0
            have hp2 : pathModel s root (pre ++ [f]) = some fi0.remote :=
              pathModel_snoc s f pre root m fi0 hp hgf hrel0
            unfold add_join at h
            cases hga : getAssoc t.joins f with
            | some c =>
              simp only [hga] at h
              cases hcf : add_field s c r with
              | error e =>
                simp only [hcf] at h
                exact absurd h (by simp)
              | ok c1 =>
                simp only [hcf] at h
                cases hrec : add_join s (r :: rest2) j c1 root (pre ++ [f]) with
                | error e =>
                  simp only [hrec] at h
                  exact absurd h (by simp)
                | ok c1f =>
                  simp only [hrec] at h
                  injection h with h
                  subst h
                  obtain ⟨fi, hgc, hcm, hcj, hmem, hpres⟩ :=
                    add_field_ok s c r c1 hcf
                  obtain ⟨hm1, hu1, hf1⟩ :=
                    add_join_comps s (r :: rest2) j c1 c1f root (pre ++ [f]) hrec
                  have hga2 : getAssoc (t.setJoin f c1f).joins f = some c1f := by
                    rw [setJoin_joins]
                    exact getAssoc_setAssoc _ _ _
                  have haf : add_field s c1f r = .ok c1f := by
                    apply add_field_self s c1f r fi
                    · rw [hm1, hcm]
                      exact hgc
                    · by_cases hb : (fi.is_relation && !fi.many) = true
                      · rw [if_pos hb] at hmem ⊢
                        rw [hu1]
                        exact hmem
                      · rw [if_neg hb] at hmem ⊢
                        rw [hf1]
                        exact hmem
                  have hih := ih j c1 c1f root fi0.remote (pre ++ [f]) hp2
                    hrest hrec
                  unfold add_join
                  simp only [hga2, haf, hih]
                  rw [setJoin_setJoin]
            | none =>
              simp only [hga] at h
              have hres : resolvePath s root (pre ++ [f]) = some fi0 := by
                rw [resolvePath_of_pathModel s f pre root m hp, hgf]
              simp only [hres] at h
              cases hini : JoinQuery.init s fi0
                  (String.intercalate "__" (pre ++ [f])) [r] with
              | error e =>
                simp only [hini] at h
                exact absurd h (by simp)
              | ok c1 =>
                simp only [hini] at h
                have hini2 := init_single s fi0
                  (String.intercalate "__" (pre ++ [f])) r fj hgr
                rw [hini] at hini2
                injection hini2 with hini2
                cases hrec : add_join s (r :: rest2) j c1 root (pre ++ [f]) with
                | error e =>
                  simp only [hrec] at h
                  exact absurd h (by simp)
                | ok c1f =>
                  simp only [hrec] at h
                  injection h with h
                  subst h
                  obtain ⟨hm1, hu1, hf1⟩ :=
                    add_join_comps s (r :: rest2) j c1 c1f root (pre ++ [f]) hrec
                  have hga2 : getAssoc (t.setJoin f c1f).joins f = some c1f := by
                    rw [setJoin_joins]
                    exact getAssoc_setAssoc _ _ _
                  have haf : add_field s c1f r = .ok c1f := by
                    apply add_field_self s c1f r fj
                    · rw [hm1, hini2]
                      exact hgr
                    · by_cases hb : (fj.is_relation && !fj.many) = true
                      · rw [if_pos hb, hu1, hini2]
                        simp only [JoinQuery.unique_foreign_field]
                        rw [if_pos hb]
                        simp
                      · rw [if_neg hb, hf1, hini2]
                        simp only [JoinQuery.many_foreign_fields]
                        have hbm : (fj.is_relation && fj.many) = true := by
                          rcases hmany : fj.many
                          · exact absurd (by rw [hfj0, hmany]; rfl) hb
                          · rw [hfj0]
                            rfl
                        rw [if_pos hbm]
                        simp
                  have hih := ih j c1 c1f root fi0.remote (pre ++ [f]) hp2
                    hrest hrec
                  unfold add_join
                  simp only [hga2, haf, hih]
                  rw [setJoin_setJoin]
  · intro f rest j t t1 root pre h
    obtain ⟨v, hv⟩ := add_join_cons_shape s f rest j t t1 root pre h
    subst hv
    rw [setJoin_joins, keys_setAssoc]

/-- Witness for C7: re-attaching `a.b` to the tree that already holds it
leaves the tree untouched, and attaching `a.c` afterwards reuses the `a`
node — the top level still holds exactly one key. -/
theorem C7_add_join_witness :
    add_join joinSchema ["a", "b"] jb tAB "root" [] = .ok tAB
    ∧ tACB.joins.map Prod.fst = ["a"] := by
  constructor
  · exact (C7_add_join_idempotent_no_duplicate joinSchema).1 ["a", "b"] jb
      rootHolder tAB "root" "root" [] rfl (by decide) (by rfl)
  · have h := (C7_add_join_idempotent_no_duplicate joinSchema).2 "a" ["c"]
      jc tAB tACB "root" [] (by rfl)
    rw [h]
    decide

/-! Claim C4 — eager-load/fetch round-trip counting. -/
mutual

theorem fetchQueries_zero (j : JoinQuery) (h : noFetchFilters j = true)
    (k : Nat) : fetchQueries k j = 0 := by
  cases j with
  | mk m f st li so fl ma fs uf mf js =>
    simp only [noFetchFilters, Bool.and_eq_true] at h
    obtain ⟨⟨h1, h2⟩, h3⟩ := h
    simp [fetchQueries, h1, h2, fetchQueriesL_zero js h3 k]

theorem fetchQueriesL_zero (l : List (String × JoinQuery))
    (h : noFetchFiltersL l = true) (k : Nat) : fetchQueriesL k l = 0 := by
  cases l with
  | nil => simp [fetchQueriesL]
  | cons p t =>
    obtain ⟨_, c⟩ := p
    simp only [noFetchFiltersL, Bool.and_eq_true] at h
    simp [fetchQueriesL, fetchQueries_zero c h.1 k, fetchQueriesL_zero t h.2 k]

end

/-- C4 (amended): when no join node carries fetch-time sub-predicates or
sort, the total number of storage round trips is `1 + Σ prefetch hints` —
each node's eager load issued exactly once while the root queryset is
prefetched — independent of the number of root rows and of the number of
sub-rows; with sub-predicates or sort on a node, `_fetch_many` re-applies
them through the storage API per row and the bound fails (see the
counterexample). -/
theorem C4_prefetch_once_bounded (joins : List JoinQuery)
    (h : joins.all noFetchFilters = true) (n n2 k k2 : Nat) :
    totalQueries joins n k = 1 + (joins.map prefetchHints).sum
    ∧ totalQueries joins n k = totalQueries joins n2 k2 := by
  have hz : ∀ k3 : Nat, (joins.map (fetchQueries k3)).sum = 0 := by
    intro k3
    apply List.sum_eq_zero
    intro x hx
    obtain ⟨j, hj, hxe⟩ := List.mem_map.1 hx
    rw [← hxe]
    exact fetchQueries_zero j (List.all_eq_true.1 h j hj) k3
  constructor
  · simp [totalQueries, hz]
  · simp [totalQueries, hz]

/-- Witness for C4's amended bound: the plain two-level tree `a.b` costs
the same number of round trips whether there are 5 or 500 root rows. -/
theorem C4_prefetch_once_bounded_witness :
    totalQueries [jaB] 5 3 = totalQueries [jaB] 500 7
    ∧ totalQueries [jaB] 5 3 = 1 + ([jaB].map prefetchHints).sum := by
  have h := C4_prefetch_once_bounded [jaB] (by decide) 5 500 3 7
  exact ⟨h.2, h.1⟩

/-- Counterexample for C4 as stated: with one sub-predicate on a join node,
the total number of storage round trips depends on the number of root rows
(the per-row fetch re-runs the filtered relation query), contradicting
"bounded ... independent of the number of root rows". -/
theorem C4_counterexample :
    totalQueries [jFiltered] 5 0 ≠ totalQueries [jFiltered] 6 0 := by
  simp [totalQueries, prefetchHints, prefetchHintsL, fetchQueries,
    fetchQueriesL, jFiltered, filterOne]

/-! Claim C1 — dispatch order of the command loop. -/
lemma runMatchingTr_prefixOf (ctx : Ctx) (cs : List (Nat × Command))
    (qd : QueryDict) (f : String) : ∀ st : QueryState,
    (runMatchingTr ctx cs st qd f).2 <+:
      ((cs.filter (fun p => p.2.regex f)).map Prod.fst) := by
  induction cs with
  | nil =>
    intro st
    simp [runMatchingTr]
  | cons p rest ih =>
    intro st
    obtain ⟨i, c⟩ := p
    by_cases hm : c.regex f = true
    · simp only [runMatchingTr]
      rw [if_pos hm, List.filter_cons_of_pos (by simpa using hm)]
      cases hr : c.run ctx st qd with
      | error e =>
        simp only [hr, List.map_cons]
        exact ⟨(rest.filter (fun p => p.2.regex f)).map Prod.fst, by simp⟩
      | ok st2 =>
        simp only [hr, List.map_cons]
        rcases hrt : runMatchingTr ctx rest st2 qd f with ⟨r, tr⟩
        simp only [hrt]
        have h2 := ih st2
        rw [hrt] at h2
        exact List.cons_prefix_cons.2 ⟨rfl, h2⟩
    · simp only [runMatchingTr]
      rw [if_neg hm, List.filter_cons_of_neg (by simpa using hm)]
      exact ih st

lemma runMatchingTr_ok_trace (ctx : Ctx) (cs : List (Nat × Command))
    (qd : QueryDict) (f : String) : ∀ (st st2 : QueryState),
    (runMatchingTr ctx cs st qd f).1 = .ok st2 →
    (runMatchingTr ctx cs st qd f).2 =
      (cs.filter (fun p => p.2.regex f)).map Prod.fst := by
  induction cs with
  | nil =>
    intro st st2 _
    simp [runMatchingTr]
  | cons p rest ih =>
    intro st st2 h
    obtain ⟨i, c⟩ := p
    by_cases hm : c.regex f = true
    · simp only [runMatchingTr] at h ⊢
      rw [if_pos hm] at h ⊢
      rw [List.filter_cons_of_pos (by simpa using hm)]
      cases hr : c.run ctx st qd with
      | error e =>
        rw [hr] at h
        simp at h
      | ok stm =>
        rw [hr] at h
        have h2 := ih stm st2 (by exact h)
        show i :: (runMatchingTr ctx rest stm qd f).2 =
          ((i, c) :: rest.filter (fun p => p.2.regex f)).map Prod.fst
        simp only [List.map_cons]
        rw [h2]
    · simp only [runMatchingTr] at h ⊢
      rw [if_neg hm] at h ⊢
      rw [List.filter_cons_of_neg (by simpa using hm)]
      exact ih st st2 h

lemma filtered_enum_pairwise (cmds : List Command) (f : String) :
    ((cmds.enum.filter (fun p => p.2.regex f)).map Prod.fst).Pairwise
      (· < ·) := by
  have h1 : List.Sublist (cmds.enum.filter (fun p => p.2.regex f))
      cmds.enum := List.filter_sublist _
  have h2 := h1.map Prod.fst
  have h3 : cmds.enum.map Prod.fst = List.range cmds.length :=
    List.enum_map_fst _
  rw [h3] at h2
  exact (List.pairwise_lt_range _).sublist h2

/-- C1 (amended): in the dispatch loop of `GenericQuery.evaluate`, each
parameter key invokes handlers at strictly increasing pipeline positions —
a prefix of the matching handlers in declared order, and exactly the
matching handlers in declared order when no handler raises.  (The loop
over distinct keys runs in input order, and the counterexample shows the
result envelope is not invariant under key permutation.) -/
theorem C1_per_key_pipeline_order (ctx : Ctx) (cmds : List Command)
    (st : QueryState) (qd : QueryDict) (f : String) :
    ((runMatchingTr ctx cmds.enum st qd f).2 <+:
      ((cmds.enum.filter (fun p => p.2.regex f)).map Prod.fst))
    ∧ ((runMatchingTr ctx cmds.enum st qd f).2.Pairwise (· < ·))
    ∧ (∀ st2, (runMatchingTr ctx cmds.enum st qd f).1 = .ok st2 →
      (runMatchingTr ctx cmds.enum st qd f).2 =
        (cmds.enum.filter (fun p => p.2.regex f)).map Prod.fst) := by
  refine ⟨runMatchingTr_prefixOf ctx cmds.enum qd f st, ?_,
    fun st2 h => runMatchingTr_ok_trace ctx cmds.enum qd f st st2 h⟩
  exact (filtered_enum_pairwise cmds f).sublist
    ((runMatchingTr_prefixOf ctx cmds.enum qd f st).sublist)

/-- Witness for C1: dispatching the key `c:sort` over the embedded
pipeline invokes exactly the handler at pipeline position 0 (`Sort`). -/
theorem C1_per_key_pipeline_order_witness :
    (runMatchingTr ctxC pipelineModel.enum st0C in1 "c:sort").2 = [0] := by
  have h :=
    (C1_per_key_pipeline_order ctxC pipelineModel st0C in1 "c:sort").2.2
  have he : (runMatchingTr ctxC pipelineModel.enum st0C in1 "c:sort").1 =
      .ok { st0C with queryset := { st0C.queryset with order := ["name"] } } :=
    rfl
  exact (h _ he).trans (by decide)

/-- Counterexample for C1: the two inputs are key permutations of each
other, yet the result envelopes differ — with `c:sort` first the query
succeeds, with `c:start` first the sort is applied to an already-sliced
queryset and the evaluation fails. -/
theorem C1_counterexample :
    (in2 : List (String × List String)).Perm in1
    ∧ evaluate ctxC pipelineModel [] in1 dataC st0C ≠
      evaluate ctxC pipelineModel [] in2 dataC st0C := by
  constructor
  · decide
  · have e1 : evaluate ctxC pipelineModel [] in1 dataC st0C =
        { status := true,
          rows := some [[("id", .int 6), ("name", .str "Peru"),
            ("population", .int 33)]] } := by decide
    have e2 : evaluate ctxC pipelineModel [] in2 dataC st0C =
        { status := false, code := some "UNKNOWN",
          message :=
            some "Cannot reorder a query once a slice has been taken." } := by
      decide
    rw [e1, e2]
    simp

/-! Claim C2 — the sliced state machine. -/
/-- C2 (code bug): `GenericQuery.__init__` initializes the `sliced` flag,
but the `Subset` handler never sets it (first conjunct: after Scenario D's
pagination the flag is still `false`) and the `Sort` handler never checks
it — a sort directive dispatched after `c:start=4&c:limit=0` is not
refused with `InvalidCommandError`; instead the slicing guard of the
queryset itself escapes as a non-dgeq exception and is rendered with the
generic `"UNKNOWN"` code (second conjunct), while the same sort directive
issued before the pagination succeeds (third conjunct). -/
theorem C2_sliced_one_way_transition :
    ((SubsetCmd.run ctxC st0C qdC2a).map (fun st => st.sliced) = .ok false)
    ∧ evaluate ctxC pipelineModel [] qdC2a dataC st0C =
      { status := false, code := some "UNKNOWN",
        message := some "Cannot reorder a query once a slice has been taken." }
    ∧ (evaluate ctxC pipelineModel [] qdC2b dataC st0C).status = true := by
  refine ⟨by decide, by decide, by decide⟩

/-! Claim C8 — the unknown-error fallback. -/
/-- C8 (code bug): whenever the try block of `GenericQuery.evaluate`
escapes with a non-`DgeqError` exception, the envelope is a generic
failure with the fixed code `"UNKNOWN"` — but its public `message` is
`str(e)`, the internal exception's text, verbatim. -/
theorem C8_unknown_fallback (ctx : Ctx) (pre post : List Command)
    (qd : QueryDict) (data : List Row) (st0 : QueryState) (t : String)
    (h : evaluateExc ctx pre post qd data st0 = .error (.other t)) :
    evaluate ctx pre post qd data st0 =
      { status := false, rows := none, count := none,
        code := some "UNKNOWN", message := some t } := by
  unfold evaluate
  rw [h]

/-- Witness for C8: sorting an already-sliced queryset escapes with the
queryset guard's own text, and the envelope leaks that text as its public
message. -/
theorem C8_unknown_fallback_witness :
    evaluateExc ctxC pipelineModel [] in2 dataC st0C =
      .error (.other "Cannot reorder a query once a slice has been taken.")
    ∧ evaluate ctxC pipelineModel [] in2 dataC st0C =
      { status := false, rows := none, count := none,
        code := some "UNKNOWN",
        message := some "Cannot reorder a query once a slice has been taken." } :=
  ⟨by decide,
   C8_unknown_fallback ctxC pipelineModel [] in2 dataC st0C _ (by decide)⟩

end Dgeq

